import Mathlib

/-!
Verification of the orchestration core of `src/utils.js`:
the bounded-concurrency task runner `throttleAll`, the byte-signature
sniffer `fileTypeFromBuffer`, the filename helpers `replaceFileExtension`
and `isAbsoluteURL`, and the backend adapters (`imageminMinify`,
`sharpTransform`/`sharpGenerate`, `squooshGenerate`).

Buffers are modelled as `List Nat` (byte values), strings as Lean `String`.
The asynchronous scheduler is modelled as a small-step state machine whose
nondeterministic input is the order in which in-flight tasks complete.
Calls into collaborator codec libraries (imagemin, squoosh, sharp) are
modelled by passing their observable outputs as explicit parameters.
-/

namespace ImageMinimizer

/-- ASCII letter test, the `[a-zA-Z]` character class. -/
def isAsciiLetter (c : Char) : Bool :=
  ('a' ≤ c && c ≤ 'z') || ('A' ≤ c && c ≤ 'Z')

/-- The `[a-zA-Z\d+\-.]` character class of `ABSOLUTE_URL_REGEX`. -/
def isSchemeChar (c : Char) : Bool :=
  isAsciiLetter c || c.isDigit || c = '+' || c = '-' || c = '.'

/-- After the first letter, `ABSOLUTE_URL_REGEX` needs a (possibly empty)
run of scheme characters followed by a colon; this scans for it. -/
def schemeColonScan : List Char → Bool
  | [] => false
  | c :: rest => c = ':' || (isSchemeChar c && schemeColonScan rest)

/-- `ABSOLUTE_URL_REGEX.test(url)`: `/^[a-zA-Z][a-zA-Z\d+\-.]*?:/`. -/
def absoluteURLTest (url : String) : Bool :=
  match url.data with
  | [] => false
  | c :: rest => isAsciiLetter c && schemeColonScan rest

/-- `WINDOWS_PATH_REGEX.test(url)`: `/^[a-zA-Z]:\\/`. -/
def windowsPathTest (url : String) : Bool :=
  match url.data with
  | c0 :: c1 :: c2 :: _ => isAsciiLetter c0 && c1 = ':' && c2 = '\\'
  | _ => false

/-- `POSIX_PATH_REGEX.test(url)`: `/^\//`. -/
def posixPathTest (url : String) : Bool :=
  match url.data with
  | c :: _ => c = '/'
  | [] => false

/-- `isAbsoluteURL` from src/utils.js: true when any of the three
anchored regexes matches. -/
def isAbsoluteURL (url : String) : Bool :=
  windowsPathTest url || posixPathTest url || absoluteURLTest url

/-- The scan loop of `replaceFileExtension`, run on the reversed character
list of the filename: walking back from the end, a `.` found before any
path separator yields the number of characters preceding it (the JS
`dotIndex`); hitting `/` or `\` or the start of the string yields nothing
(the JS `dotIndex === -1` case). -/
def rfeScan : List Char → Option Nat
  | [] => none
  | c :: rest =>
    if c = '.' then some rest.length
    else if c = '/' ∨ c = '\\' then none
    else rfeScan rest

/-- `replaceFileExtension(filename, ext)` from src/utils.js: replace the
extension after the last `.` of the last path segment, or return the
filename unchanged when that segment has no `.`. -/
def replaceFileExtension (filename : String) (ext : String) : String :=
  match rfeScan filename.data.reverse with
  | none => filename
  | some dotIndex => ⟨filename.data.take dotIndex ++ ('.' :: ext.data)⟩

/-- Loop state of Node's `path.posix.extname` scan (the `path` module is a
collaborator of src/utils.js; this follows the algorithm of Node's
`lib/path.js`). -/
structure ExtnameState where
  startDot : Option Nat
  startPart : Nat
  endIdx : Option Nat
  matchedSlash : Bool
  preDotState : Int
deriving Repr, DecidableEq

/-- One backwards pass of Node's `path.posix.extname` over indices
`i-1, i-2, ..., 0` of `chars`. -/
def extnameGo (chars : List Char) : Nat → ExtnameState → ExtnameState
  | 0, s => s
  | i + 1, s =>
    let c := chars.getD i ' '
    if c = '/' then
      if !s.matchedSlash then { s with startPart := i + 1 }
      else extnameGo chars i s
    else
      let s1 := if s.endIdx = none then
        { s with matchedSlash := false, endIdx := some (i + 1) } else s
      let s2 :=
        if c = '.' then
          match s1.startDot with
          | none => { s1 with startDot := some i }
          | some _ => if s1.preDotState ≠ 1 then { s1 with preDotState := 1 } else s1
        else if s1.startDot ≠ none then { s1 with preDotState := -1 }
        else s1
      extnameGo chars i s2

/-- Node's `path.posix.extname` (collaborator of src/utils.js): the
extension of the last path segment including its dot, or `""`. -/
def extname (p : String) : String :=
  let chars := p.data
  let s := extnameGo chars chars.length ⟨none, 0, none, true, 0⟩
  match s.startDot, s.endIdx with
  | some sd, some e =>
    if s.preDotState = 0 ∨ (s.preDotState = 1 ∧ sd = e - 1 ∧ sd = s.startPart + 1)
    then ""
    else ⟨(chars.drop sd).take (e - sd)⟩
  | _, _ => ""

/-- `path.extname(filename).slice(1).toLowerCase()`, the declared-extension
computation used by the adapters in src/utils.js (ASCII lowering; the
format names it is compared against are ASCII). -/
def extnameLower (filename : String) : String :=
  ⟨((extname filename).data.drop 1).map Char.toLower⟩

/-! ## The byte-signature sniffer `fileTypeFromBuffer` -/

/-- Classification returned by the sniffer: `{ext, mime}`. -/
structure FileType where
  ext : String
  mime : String
deriving Repr, DecidableEq

/-- The inner `check(header, {offset})` helper of `fileTypeFromBuffer`
(no call site in src/utils.js passes a `mask`): every header byte must be
present in the buffer at the given offset and equal; reading past the end
of the buffer compares a byte against `undefined` and fails. -/
def checkBytes (buffer : List Nat) : List Nat → Nat → Bool
  | [], _ => true
  | h :: t, off => buffer[off]? == some h && checkBytes buffer t (off + 1)

/-- `checkString(header, options)`: byte codes of an ASCII string. -/
def stringToBytes (s : String) : List Nat :=
  s.data.map Char.toNat

/-- The `buffer.findIndex` scan of the APNG branch: the first index
`i ≥ 33` where the four bytes `0x49 0x44 0x41 0x54` (`IDAT`) start,
entirely inside the buffer; `none` models the JS result `-1`. -/
def findIDATIndex (buffer : List Nat) : Option Nat :=
  (List.range buffer.length).find? fun i =>
    decide (33 ≤ i) && buffer[i]? == some 0x49 && buffer[i + 1]? == some 0x44 &&
      buffer[i + 2]? == some 0x41 && buffer[i + 3]? == some 0x54

/-- The `buffer.subarray(startIndex, firstImageDataChunkIndex)` slice of the
APNG branch. When no `IDAT` chunk was found the JS index is `-1`, and
`subarray` interprets a negative end as `length - 1`, so the slice then
covers bytes `33 .. length - 2`. -/
def apngScanRegion (buffer : List Nat) : List Nat :=
  match findIDATIndex buffer with
  | some f => (buffer.take f).drop 33
  | none => (buffer.take (buffer.length - 1)).drop 33

/-- The `sliced.findIndex(...) >= 0` test of the APNG branch: some position
in the slice starts the four bytes `0x61 0x63 0x54 0x4c` (`acTL`), entirely
inside the slice. -/
def hasACTL (sliced : List Nat) : Bool :=
  (List.range sliced.length).any fun i =>
    sliced[i]? == some 0x61 && sliced[i + 1]? == some 0x63 &&
      sliced[i + 2]? == some 0x54 && sliced[i + 3]? == some 0x4c

/-- JavaScript whitespace for `String.prototype.trim` (code points). -/
def isJsWhitespace (c : Nat) : Bool :=
  (0x09 ≤ c && c ≤ 0x0d) || c = 0x20 || c = 0xa0 || c = 0x1680 ||
    (0x2000 ≤ c && c ≤ 0x200a) || c = 0x2028 || c = 0x2029 ||
    c = 0x202f || c = 0x205f || c = 0x3000 || c = 0xfeff

/-- `.replace("\0", " ")` on a code-point list: only the first NUL is
replaced. -/
def replaceFirstNul : List Nat → List Nat
  | [] => []
  | c :: rest => if c = 0 then 0x20 :: rest else c :: replaceFirstNul rest

/-- `.trim()` on a code-point list. -/
def jsTrim (l : List Nat) : List Nat :=
  ((l.dropWhile isJsWhitespace).reverse.dropWhile isJsWhitespace).reverse

/-- The `brandMajor` computation of the ISO-BMFF (`ftyp`) branch:
code points of bytes 8..11 (as far as present), first NUL replaced by a
space, then trimmed. -/
def brandMajor (buffer : List Nat) : List Nat :=
  jsTrim (replaceFirstNul ((buffer.drop 8).take 4))

/-- The `switch (brandMajor)` dispatch of the `ftyp` branch; `none` is the
fall-through of the omitted `default` case. -/
def ftypBrandDispatch (brand : List Nat) : Option FileType :=
  if brand = stringToBytes "avif" then some ⟨"avif", "image/avif"⟩
  else if brand = stringToBytes "mif1" then some ⟨"heic", "image/heif"⟩
  else if brand = stringToBytes "msf1" then some ⟨"heic", "image/heif-sequence"⟩
  else if brand = stringToBytes "heic" ∨ brand = stringToBytes "heix" then
    some ⟨"heic", "image/heic"⟩
  else if brand = stringToBytes "hevc" ∨ brand = stringToBytes "hevx" then
    some ⟨"heic", "image/heic-sequence"⟩
  else none

/-- The PNG branch of `fileTypeFromBuffer`, entered once the 8-byte PNG
signature has matched: `apng` when an `acTL` run occurs in the scan region
before the first `IDAT` chunk, else `png`. -/
def pngBranch (buffer : List Nat) : FileType :=
  if hasACTL (apngScanRegion buffer) then ⟨"apng", "image/apng"⟩
  else ⟨"png", "image/png"⟩

/-- `fileTypeFromBuffer` from src/utils.js, on an in-range byte list:
the ordered signature cascade. Buffers shorter than 2 bytes yield no
match (the JS early `return`). -/
def fileTypeFromBuffer (buffer : List Nat) : Option FileType :=
  if buffer.length ≤ 1 then none
  else if checkBytes buffer [0xff, 0xd8, 0xff] 0 then some ⟨"jpg", "image/jpeg"⟩
  else if checkBytes buffer [0x89, 0x50, 0x4e, 0x47, 0x0d, 0x0a, 0x1a, 0x0a] 0 then
    some (pngBranch buffer)
  else if checkBytes buffer [0x47, 0x49, 0x46] 0 then some ⟨"gif", "image/gif"⟩
  else if checkBytes buffer [0x57, 0x45, 0x42, 0x50] 8 then some ⟨"webp", "image/webp"⟩
  else if checkBytes buffer [0x46, 0x4c, 0x49, 0x46] 0 then some ⟨"flif", "image/flif"⟩
  else if (checkBytes buffer [0x49, 0x49, 0x2a, 0x0] 0 ||
      checkBytes buffer [0x4d, 0x4d, 0x0, 0x2a] 0) &&
      checkBytes buffer [0x43, 0x52] 8 then some ⟨"cr2", "image/x-canon-cr2"⟩
  else if checkBytes buffer [0x49, 0x49, 0x52, 0x4f, 0x08, 0x00, 0x00, 0x00, 0x18] 0 then
    some ⟨"orf", "image/x-olympus-orf"⟩
  else if checkBytes buffer [0x49, 0x49, 0x2a, 0x00] 0 &&
      (checkBytes buffer [0x10, 0xfb, 0x86, 0x01] 4 ||
        checkBytes buffer [0x08, 0x00, 0x00, 0x00] 4) &&
      checkBytes buffer
        [0x00, 0xfe, 0x00, 0x04, 0x00, 0x01, 0x00, 0x00, 0x00, 0x01, 0x00, 0x00,
          0x00, 0x03, 0x01] 9 then
    some ⟨"arw", "image/x-sony-arw"⟩
  else if checkBytes buffer [0x49, 0x49, 0x2a, 0x00, 0x08, 0x00, 0x00, 0x00] 0 &&
      (checkBytes buffer [0x2d, 0x00, 0xfe, 0x00] 8 ||
        checkBytes buffer [0x27, 0x00, 0xfe, 0x00] 8) then
    some ⟨"dng", "image/x-adobe-dng"⟩
  else if checkBytes buffer [0x49, 0x49, 0x2a, 0x00] 0 &&
      checkBytes buffer [0x1c, 0x00, 0xfe, 0x00] 8 then
    some ⟨"nef", "image/x-nikon-nef"⟩
  else if checkBytes buffer
      [0x49, 0x49, 0x55, 0x00, 0x18, 0x00, 0x00, 0x00, 0x88, 0xe7, 0x74, 0xd8] 0 then
    some ⟨"rw2", "image/x-panasonic-rw2"⟩
  else if checkBytes buffer (stringToBytes "FUJIFILMCCD-RAW") 0 then
    some ⟨"raf", "image/x-fujifilm-raf"⟩
  else if checkBytes buffer [0x49, 0x49, 0x2a, 0x0] 0 ||
      checkBytes buffer [0x4d, 0x4d, 0x0, 0x2a] 0 then
    some ⟨"tif", "image/tiff"⟩
  else if checkBytes buffer [0x42, 0x4d] 0 then some ⟨"bmp", "image/bmp"⟩
  else if checkBytes buffer [0x49, 0x49, 0xbc] 0 then
    some ⟨"jxr", "image/vnd.ms-photo"⟩
  else if checkBytes buffer [0x38, 0x42, 0x50, 0x53] 0 then
    some ⟨"psd", "image/vnd.adobe.photoshop"⟩
  else if checkBytes buffer (stringToBytes "ftyp") 4 &&
      (buffer.getD 8 0) &&& 0x60 ≠ 0 &&
      (ftypBrandDispatch (brandMajor buffer)).isSome then
    ftypBrandDispatch (brandMajor buffer)
  else if checkBytes buffer [0x00, 0x00, 0x01, 0x00] 0 then
    some ⟨"ico", "image/x-icon"⟩
  else if checkBytes buffer [0x00, 0x00, 0x02, 0x00] 0 then
    some ⟨"cur", "image/x-icon"⟩
  else if checkBytes buffer [0x42, 0x50, 0x47, 0xfb] 0 then
    some ⟨"bpg", "image/bpg"⟩
  else if checkBytes buffer
      [0x00, 0x00, 0x00, 0x0c, 0x6a, 0x50, 0x20, 0x20, 0x0d, 0x0a, 0x87, 0x0a] 0 &&
      checkBytes buffer [0x6a, 0x70, 0x32, 0x20] 20 then
    some ⟨"jp2", "image/jp2"⟩
  else if checkBytes buffer
      [0x00, 0x00, 0x00, 0x0c, 0x6a, 0x50, 0x20, 0x20, 0x0d, 0x0a, 0x87, 0x0a] 0 &&
      checkBytes buffer [0x6a, 0x70, 0x78, 0x20] 20 then
    some ⟨"jpx", "image/jpx"⟩
  else if checkBytes buffer
      [0x00, 0x00, 0x00, 0x0c, 0x6a, 0x50, 0x20, 0x20, 0x0d, 0x0a, 0x87, 0x0a] 0 &&
      checkBytes buffer [0x6a, 0x70, 0x6d, 0x20] 20 then
    some ⟨"jpm", "image/jpm"⟩
  else if checkBytes buffer
      [0x00, 0x00, 0x00, 0x0c, 0x6a, 0x50, 0x20, 0x20, 0x0d, 0x0a, 0x87, 0x0a] 0 &&
      checkBytes buffer [0x6d, 0x6a, 0x70, 0x32] 20 then
    some ⟨"mj2", "image/mj2"⟩
  else if checkBytes buffer [0xff, 0x0a] 0 ||
      checkBytes buffer
        [0x00, 0x00, 0x00, 0x0c, 0x4a, 0x58, 0x4c, 0x20, 0x0d, 0x0a, 0x87, 0x0a] 0 then
    some ⟨"jxl", "image/jxl"⟩
  else if checkBytes buffer
      [0xab, 0x4b, 0x54, 0x58, 0x20, 0x31, 0x31, 0xbb, 0x0d, 0x0a, 0x1a, 0x0a] 0 then
    some ⟨"ktx", "image/ktx"⟩
  else none

/-! ## WorkItem and the backend adapters -/

/-- A value stored under one key of the open `info` mapping of a worker
item (booleans for stage flags, numbers for dimensions, string lists for
provenance). -/
inductive InfoVal where
  | bool : Bool → InfoVal
  | nat : Nat → InfoVal
  | strList : List String → InfoVal
deriving Repr, DecidableEq

/-- The open `info` object, as an association list with the object's key
order. -/
abbrev Info := List (String × InfoVal)

/-- Property lookup on the `info` object. -/
def Info.lookup : Info → String → Option InfoVal
  | [], _ => none
  | (a, b) :: rest, k => if a = k then some b else Info.lookup rest k

/-- Replace the value stored at a key, keeping the entry position (JS
objects have unique keys, so at most one entry is affected in the lists
this model builds). -/
def Info.replaceKey : Info → String → InfoVal → Info
  | [], _, _ => []
  | (a, b) :: rest, k, v =>
    (if a = k then (k, v) else (a, b)) :: Info.replaceKey rest k v

/-- The JS object-spread override `{...info, k: v}`: replace the value at
an existing key in place, otherwise add the key at the end. -/
def Info.set (info : Info) (k : String) (v : InfoVal) : Info :=
  if (Info.lookup info k).isSome then Info.replaceKey info k v
  else info ++ [(k, v)]

/-- `info?.key ?? []` for a provenance list key. -/
def Info.getStrList (info : Info) (k : String) : List String :=
  match Info.lookup info k with
  | some (.strList l) => l
  | _ => []

/-- The worker item flowing through the pipeline (`WorkerResult` in
src/utils.js): filename, payload bytes, accumulated diagnostics
(modelled as their messages), and the open `info` mapping. -/
structure WorkItem where
  filename : String
  data : List Nat
  warnings : List String
  errors : List String
  info : Info
deriving Repr, DecidableEq

/-- The warning message pushed by `imageminMinify` on an output-format
mismatch. -/
def minifyMismatchMsg (extOutput filename : String) : String :=
  s!"\x22imageminMinify\x22 function do not support generate to \x22{extOutput}\x22 from \x22{filename}\x22. Please use \x22imageminGenerate\x22 function."

/-- The format-mismatch test of `imageminMinify`: skipped entirely for
`isAbsoluteURL` filenames; otherwise the sniffed output extension when it
is present (`extOutput` truthy) and differs from the declared input
extension. -/
def imageminMismatch (original : WorkItem) (result : List Nat) : Option String :=
  if isAbsoluteURL original.filename then none
  else
    match fileTypeFromBuffer result with
    | some ft => if extnameLower original.filename ≠ ft.ext then some ft.ext else none
    | none => none

/-- `imageminMinify` from src/utils.js, after the collaborator call
`imagemin.buffer(original.data, ...)` has succeeded with the byte list
`result`. The first component is the caller's item as left by the call
(the JS function mutates `original.warnings` on the mismatch path), the
second is the return value (`none` models the JS `null`). -/
def imageminMinify (original : WorkItem) (result : List Nat) : WorkItem × Option WorkItem :=
  match imageminMismatch original result with
  | some extOutput =>
    ({ original with
        warnings := original.warnings ++ [minifyMismatchMsg extOutput original.filename] },
      none)
  | none =>
    (original,
      some
        { filename := original.filename
          data := result
          warnings := original.warnings
          errors := original.errors
          info :=
            (original.info.set "minimized" (.bool true)).set "minimizedBy"
              (.strList ("imagemin" :: original.info.getStrList "minimizedBy")) })

/-- The observable outputs of the collaborator `sharp` pipeline for one
call: the probed metadata format of the input, and the encoded result's
bytes and dimensions. -/
structure SharpEnv where
  metadataFormat : String
  resultData : List Nat
  resultWidth : Nat
  resultHeight : Nat
deriving Repr, DecidableEq

/-- The `SharpOptions` shape used by `sharpTransform`/`sharpGenerate`:
`encodeOptions` is kept as the key list `Object.keys(encodeOptions ?? {})`
(the per-codec option values are opaque collaborator data), `sizeSuffix`
is the optional suffix callback. -/
structure SharpOptions where
  encodeOptions : List String := []
  sizeSuffix : Option (Nat → Nat → String) := none

/-- `SHARP_MINIFY_FORMATS` from src/utils.js. -/
def SHARP_MINIFY_FORMATS : List (String × String) :=
  [("avif", "avif"), ("gif", "gif"), ("heic", "heif"), ("heif", "heif"),
    ("j2c", "jp2"), ("j2k", "jp2"), ("jp2", "jp2"), ("jpeg", "jpeg"),
    ("jpg", "jpeg"), ("jpx", "jp2"), ("png", "png"), ("raw", "raw"),
    ("tif", "tiff"), ("tiff", "tiff"), ("webp", "webp")]

/-- `SHARP_GENERATE_FORMATS` from src/utils.js. -/
def SHARP_GENERATE_FORMATS : List (String × String) :=
  SHARP_MINIFY_FORMATS ++ [("svg", "svg")]

/-- `String.prototype.lastIndexOf(".")`. -/
def lastDotIndex (s : String) : Option Nat :=
  match s.data.reverse.findIdx? (· = '.') with
  | some k => some (s.data.length - 1 - k)
  | none => none

/-- The error message pushed by `sharpTransform` for an unsupported input
format in generate mode. -/
def sharpUnsupportedMsg (filename : String) : String :=
  s!"Error with \x27{filename}\x27: Input file has an unsupported format"

/-- `sharpTransform` from src/utils.js, with the collaborator `sharp`
pipeline's observable outputs passed as `env`. `targetFormat = none` is
minify mode, `some fmt` is generate mode. Returns the caller's item as
left by the call plus the return value. -/
def sharpTransform (env : SharpEnv) (original : WorkItem) (opts : SharpOptions)
    (targetFormat : Option String) : WorkItem × Option WorkItem :=
  let inputExt := extnameLower original.filename
  let supported :=
    match targetFormat with
    | none => (List.lookup inputExt SHARP_MINIFY_FORMATS).isSome
    | some _ => (List.lookup inputExt SHARP_GENERATE_FORMATS).isSome
  if !supported then
    match targetFormat with
    | some _ =>
      ({ original with errors := original.errors ++ [sharpUnsupportedMsg original.filename] },
        none)
    | none => (original, none)
  else
    let outputFormat := targetFormat.getD env.metadataFormat
    let outputExt :=
      match targetFormat with
      | some _ => outputFormat
      | none => inputExt
    let width := env.resultWidth
    let height := env.resultHeight
    let sizeSuffix :=
      match opts.sizeSuffix with
      | some f => f width height
      | none => ""
    let filename :=
      match lastDotIndex original.filename with
      | some d => (⟨original.filename.data.take d⟩ : String) ++ sizeSuffix ++ "." ++ outputExt
      | none => original.filename
    let processedFlag :=
      match targetFormat with
      | some _ => "generated"
      | none => "minimized"
    let processedBy :=
      match targetFormat with
      | some _ => "generatedBy"
      | none => "minimizedBy"
    (original,
      some
        { filename := filename
          data := env.resultData
          warnings := original.warnings
          errors := original.errors
          info :=
            ((((original.info.set "width" (.nat width)).set "height" (.nat height)).set
                  processedFlag (.bool true)).set
              processedBy (.strList ("sharp" :: original.info.getStrList processedBy))) })

/-- The "nothing to generate" error message of `sharpGenerate` and the
matching `squooshGenerate` message. -/
def generateNoResultMsg (backend filename : String) : String :=
  s!"No result from \x27{backend}\x27 for \x27{filename}\x27, please configure the \x27encodeOptions\x27 option to generate images"

/-- The "more than one codec" error message of `sharpGenerate` and
`squooshGenerate`. -/
def generateMultipleMsg (filename : String) : String :=
  s!"Multiple values for the \x27encodeOptions\x27 option is not supported for \x27{filename}\x27, specify only one codec for the generator"

/-- `sharpGenerate` from src/utils.js: rejects zero or more than one
configured target format, otherwise delegates to `sharpTransform` with the
single configured format. -/
def sharpGenerate (env : SharpEnv) (original : WorkItem) (opts : SharpOptions) :
    WorkItem × Option WorkItem :=
  match opts.encodeOptions with
  | [] =>
    ({ original with
        errors := original.errors ++ [generateNoResultMsg "sharp" original.filename] },
      none)
  | [targetFormat] => sharpTransform env original opts (some targetFormat)
  | _ :: _ :: _ =>
    ({ original with errors := original.errors ++ [generateMultipleMsg original.filename] },
      none)

/-- One entry of the collaborator squoosh `image.encodedWith` record: the
encoded bytes and the codec's file extension. -/
structure SquooshEnc where
  binary : List Nat
  extension : String
deriving Repr, DecidableEq

/-- `squooshGenerate` from src/utils.js, after the collaborator
`image.encode(encodeOptions)` call has succeeded. The squoosh image pool
records one `encodedWith` entry per codec key configured on
`encodeOptions`, so `encodedWith` is `encodeOptionKeys` paired with the
collaborator's results `encode`; `bitmapWidth`/`bitmapHeight` are the
decoded bitmap dimensions. Zero entries or more than one entry push one
error and return `null`; exactly one entry builds the renamed result. -/
def squooshGenerate (encode : String → SquooshEnc) (bitmapWidth bitmapHeight : Nat)
    (encodeOptionKeys : List String) (original : WorkItem) : WorkItem × Option WorkItem :=
  let encodedWith := encodeOptionKeys.map fun c => (c, encode c)
  match encodedWith with
  | [] =>
    ({ original with
        errors := original.errors ++ [generateNoResultMsg "squoosh" original.filename] },
      none)
  | [(_, r)] =>
    (original,
      some
        { filename := replaceFileExtension original.filename r.extension
          data := r.binary
          warnings := original.warnings
          errors := original.errors
          info :=
            (((original.info.set "width" (.nat bitmapWidth)).set "height"
                  (.nat bitmapHeight)).set "generated" (.bool true)).set
              "generatedBy" (.strList ("squoosh" :: original.info.getStrList "generatedBy")) })
  | _ :: _ :: _ =>
    ({ original with errors := original.errors ++ [generateMultipleMsg original.filename] },
      none)

/-! ## The bounded-concurrency scheduler `throttleAll`

`throttleAll(limit, tasks)` is asynchronous: each task eventually settles
with a value or a failure, and the order in which in-flight tasks settle
is outside the function's control. We model a task by its eventual
outcome (`Except ε α`) and an execution by the list of task indices in
the order their settlements are delivered; the promise machinery of the
source becomes a state machine whose steps are those deliveries. -/

/-- Equality of task outcomes is decidable (needed to evaluate the
scheduler model on concrete runs). -/
def exceptDecEq {ε α : Type} [DecidableEq ε] [DecidableEq α] :
    (a b : Except ε α) → Decidable (a = b)
  | .ok a, .ok b =>
    if h : a = b then isTrue (by rw [h]) else isFalse (by intro hc; cases hc; exact h rfl)
  | .ok _, .error _ => isFalse (by intro hc; cases hc)
  | .error _, .ok _ => isFalse (by intro hc; cases hc)
  | .error e, .error f =>
    if h : e = f then isTrue (by rw [h]) else isFalse (by intro hc; cases hc; exact h rfl)

instance {ε α : Type} [DecidableEq ε] [DecidableEq α] : DecidableEq (Except ε α) :=
  exceptDecEq

/-- The state of one `throttleAll` call: the position of the shared
`tasks.entries()` iterator, the indices of started-but-unsettled tasks,
the `result` slot array, the `tasksFulfilled` counter, and the state of
the returned promise (`none` while pending; a promise settles at most
once, later `resolve`/`reject` calls are ignored). -/
structure SchedState (ε α : Type) where
  nextIndex : Nat
  inFlight : List Nat
  result : List (Option α)
  fulfilled : Nat
  settled : Option (Except ε (List (Option α)))
deriving Repr, DecidableEq

/-- The inner `next()` closure of `throttleAll` for `n` tasks: start the
next queued task if the iterator is not exhausted; otherwise resolve with
the result array once every task has fulfilled. -/
def schedNext (n : Nat) (s : SchedState ε α) : SchedState ε α :=
  if s.nextIndex < n then
    { s with nextIndex := s.nextIndex + 1, inFlight := s.inFlight ++ [s.nextIndex] }
  else if s.fulfilled = n then
    match s.settled with
    | none => { s with settled := some (.ok s.result) }
    | some _ => s
  else s

/-- Delivery of the settlement of in-flight task `i`: `onFulfilled` writes
the result slot, bumps `tasksFulfilled` and calls `next()`; a failure
calls `reject`, which settles the promise if it is still pending. An
index that is not in flight has no settlement to deliver. -/
def schedComplete (tasks : List (Except ε α)) (i : Nat) (s : SchedState ε α) :
    SchedState ε α :=
  if i ∈ s.inFlight then
    let s1 := { s with inFlight := s.inFlight.erase i }
    match tasks[i]? with
    | some (.ok v) =>
      schedNext tasks.length
        { s1 with result := s1.result.set i (some v), fulfilled := s1.fulfilled + 1 }
    | some (.error e) =>
      match s1.settled with
      | none => { s1 with settled := some (.error e) }
      | some _ => s1
    | none => s1
  else s

/-- `k` successive synchronous calls of `next()` (the
`for (let i = 0; i < limit; i++) next();` loop). -/
def iterateNext (n : Nat) : Nat → SchedState ε α → SchedState ε α
  | 0, s => s
  | k + 1, s => schedNext n (iterateNext n k s)

/-- The state of a `throttleAll(limit, tasks)` call right after the
synchronous part of the body has run (the start-up loop), before any task
has settled. -/
def throttleInit (tasks : List (Except ε α)) (limit : Nat) : SchedState ε α :=
  iterateNext tasks.length limit
    ⟨0, [], List.replicate tasks.length none, 0, none⟩

/-- The state after the settlements of `order` have been delivered, in
that order, starting from the start-up state. -/
def runSched (tasks : List (Except ε α)) (limit : Nat) (order : List Nat) :
    SchedState ε α :=
  order.foldl (fun s i => schedComplete tasks i s) (throttleInit tasks limit)

/-- `order` is a possible delivery order from state `s`: each delivered
index is in flight when delivered. -/
def validFrom (tasks : List (Except ε α)) (s : SchedState ε α) : List Nat → Bool
  | [] => true
  | i :: rest => decide (i ∈ s.inFlight) && validFrom tasks (schedComplete tasks i s) rest

/-- Whether task `i` fulfills (settles with a value). -/
def taskOk (tasks : List (Except ε α)) (i : Nat) : Bool :=
  match tasks[i]? with
  | some (.ok _) => true
  | _ => false

/-- How many of the delivered tasks fulfilled. -/
def okCount (tasks : List (Except ε α)) (done : List Nat) : Nat :=
  (done.filter (taskOk tasks)).length

/-- The failure value of the first failing task in delivery order, if
any task delivered so far failed. -/
def firstError (tasks : List (Except ε α)) : List Nat → Option ε
  | [] => none
  | i :: rest =>
    match tasks[i]? with
    | some (.error e) => some e
    | _ => firstError tasks rest

/-- The expected content of result slot `i` after the tasks in `done`
have settled: the value of task `i` if it was delivered and fulfilled. -/
def expectedSlot (tasks : List (Except ε α)) (done : List Nat) (i : Nat) : Option α :=
  if i ∈ done then
    match tasks[i]? with
    | some (.ok v) => some v
    | _ => none
  else none

/-- The expected promise state after the tasks in `done` have settled:
rejected with the first delivered failure; resolved with the full slot
array once every task has fulfilled; otherwise still pending. -/
def expectedSettled (tasks : List (Except ε α)) (done : List Nat) :
    Option (Except ε (List (Option α))) :=
  match firstError tasks done with
  | some e => some (.error e)
  | none =>
    if okCount tasks done = tasks.length then
      some (.ok (tasks.map fun t => match t with | .ok v => some v | .error _ => none))
    else none

/-- The state invariant of a `throttleAll` run, relating the reached state
to the list `done` of task indices whose settlements have been delivered,
in delivery order. -/
structure SchedInv (tasks : List (Except ε α)) (limit : Nat) (done : List Nat)
    (s : SchedState ε α) : Prop where
  done_nodup : done.Nodup
  done_lt : ∀ i ∈ done, i < s.nextIndex
  next_eq : s.nextIndex = min tasks.length (okCount tasks done + limit)
  inflight_nodup : s.inFlight.Nodup
  inflight_mem : ∀ i, i ∈ s.inFlight ↔ (i < s.nextIndex ∧ i ∉ done)
  inflight_len : s.inFlight.length + done.length = s.nextIndex
  result_len : s.result.length = tasks.length
  result_at : ∀ i, i < tasks.length → s.result[i]? = some (expectedSlot tasks done i)
  fulfilled_eq : s.fulfilled = okCount tasks done
  settled_eq : s.settled = expectedSettled tasks done

/-! ## Declarative descriptions used to state the claims -/

/-- The last path segment of a filename: the characters after the last `/`
or `\` separator (the whole filename when it has no separator). -/
def lastPathSegment (f : String) : List Char :=
  (f.data.reverse.takeWhile fun c => !(c = '/' || c = '\\')).reverse

/-- An `IDAT` chunk type starts at byte `i` (all four bytes in range). -/
def idatAt (b : List Nat) (i : Nat) : Prop :=
  b[i]? = some 0x49 ∧ b[i + 1]? = some 0x44 ∧ b[i + 2]? = some 0x41 ∧
    b[i + 3]? = some 0x54

/-- An `acTL` chunk type starts at byte `j` (all four bytes in range). -/
def actlAt (b : List Nat) (j : Nat) : Prop :=
  b[j]? = some 0x61 ∧ b[j + 1]? = some 0x63 ∧ b[j + 2]? = some 0x54 ∧
    b[j + 3]? = some 0x4c

/-- An `acTL` run lies wholly inside byte positions `[33, hi)`. -/
def actlWithin (b : List Nat) (hi : Nat) : Prop :=
  ∃ j, 33 ≤ j ∧ j + 3 < hi ∧ actlAt b j

/-- Declarative APNG condition implemented by the PNG branch: an `acTL`
run wholly before the first `IDAT` run at or after offset 33 when one
exists, and otherwise (no `IDAT` located) an `acTL` run wholly inside
bytes `33 .. length - 2`. -/
def apngDeclarative (b : List Nat) : Prop :=
  (∃ f, 33 ≤ f ∧ idatAt b f ∧ (∀ j, 33 ≤ j → j < f → ¬ idatAt b j) ∧
    actlWithin b f) ∨
  ((∀ f, 33 ≤ f → ¬ idatAt b f) ∧ actlWithin b (b.length - 1))

/-- The stage-flag key written by `sharpTransform` (`processedFlag`). -/
def processedFlagKey (targetFormat : Option String) : String :=
  match targetFormat with
  | some _ => "generated"
  | none => "minimized"

/-- The provenance key written by `sharpTransform` (`processedBy`). -/
def processedByKey (targetFormat : Option String) : String :=
  match targetFormat with
  | some _ => "generatedBy"
  | none => "minimizedBy"

/-! ## Lemmas about the `info` object model -/


theorem Info.lookup_replaceKey (info : Info) (k k2 : String) (v : InfoVal) :
    Info.lookup (Info.replaceKey info k2 v) k =
      if k = k2 then (Info.lookup info k2).map (fun _ => v) else Info.lookup info k := by
  induction info with
  | nil => by_cases hk : k = k2 <;> simp [Info.replaceKey, Info.lookup, hk]
  | cons kv rest ih =>
    obtain ⟨a, b⟩ := kv
    rw [Info.replaceKey]
    by_cases ha : a = k2
    · rw [if_pos ha]
      by_cases hk : k = k2
      · subst hk
        simp [Info.lookup, ha, ih]
      · have h1 : ¬ k2 = k := fun h => hk h.symm
        have h2 : ¬ a = k := fun h => hk (h.symm.trans ha)
        simp [Info.lookup, h1, h2, hk, ih]
    · rw [if_neg ha]
      by_cases hak : a = k
      · have hk2 : ¬ k = k2 := fun h => ha (hak.trans h)
        simp [Info.lookup, hak, hk2]
      · by_cases hk : k = k2
        · subst hk
          simp [Info.lookup, hak, ha, ih]
        · simp [Info.lookup, hak, hk, ih]

theorem Info.lookup_append_of_none (info : Info) (k k2 : String) (v : InfoVal)
    (h : Info.lookup info k2 = none) :
    Info.lookup (info ++ [(k2, v)]) k = if k = k2 then some v else Info.lookup info k := by
  induction info with
  | nil =>
    by_cases hk : k = k2
    · simp [Info.lookup, hk]
    · have hk2k : ¬ k2 = k := fun h2 => hk h2.symm
      simp [Info.lookup, hk, hk2k]
  | cons kv rest ih =>
    obtain ⟨a, b⟩ := kv
    rw [Info.lookup] at h
    by_cases hak : a = k2
    · rw [if_pos hak] at h
      cases h
    · rw [if_neg hak] at h
      by_cases hk : a = k
      · have hkk2 : ¬ k = k2 := fun h2 => hak (hk.trans h2)
        simp [List.cons_append, Info.lookup, hk, hkk2]
      · simp [List.cons_append, Info.lookup, hk, ih h]

theorem Info.lookup_set (info : Info) (k k2 : String) (v : InfoVal) :
    Info.lookup (Info.set info k2 v) k = if k = k2 then some v else Info.lookup info k := by
  unfold Info.set
  rcases h : Info.lookup info k2 with _ | b
  · simp only [h, Option.isSome_none, Bool.false_eq_true, if_false]
    exact Info.lookup_append_of_none info k k2 v h
  · simp only [h, Option.isSome_some, if_true]
    rw [Info.lookup_replaceKey, h]
    rfl

/-! ## C7: short buffers -/

/-- C7: for every byte buffer shorter than 2 bytes, `fileTypeFromBuffer`
returns no match and never faults. -/
theorem fileType_short_buffer (b : List Nat) (h : b.length < 2) :
    fileTypeFromBuffer b = none := by
  have h1 : b.length ≤ 1 := Nat.lt_succ_iff.mp h
  unfold fileTypeFromBuffer
  rw [if_pos h1]

/-- Witness for C7 at the one-byte buffer `[0xff]`. -/
theorem fileType_short_buffer_witness :
    ([0xff] : List Nat).length < 2 ∧ fileTypeFromBuffer [0xff] = none :=
  ⟨by decide, fileType_short_buffer [0xff] (by decide)⟩

/-! ## C9: replaceFileExtension -/

theorem rfeScan_eq_none_of_no_dot (l : List Char)
    (h : '.' ∉ l.takeWhile fun c => !(c = '/' || c = '\\')) : rfeScan l = none := by
  induction l with
  | nil => rfl
  | cons c rest ih =>
    by_cases hsep : c = '/' ∨ c = '\\'
    · have hc : ¬ c = '.' := by
        rcases hsep with h1 | h1 <;> simp [h1]
      rw [rfeScan, if_neg hc, if_pos hsep]
    · have hcb : (!(c = '/' || c = '\\')) = true := by
        simp only [Bool.not_eq_true', Bool.or_eq_false_iff, decide_eq_false_iff_not]
        exact ⟨fun h1 => hsep (Or.inl h1), fun h1 => hsep (Or.inr h1)⟩
      simp only [List.takeWhile_cons, hcb, if_true] at h
      have hc : ¬ c = '.' := fun h1 => h (h1 ▸ List.mem_cons_self c _)
      rw [rfeScan, if_neg hc, if_neg hsep]
      exact ih fun h1 => h (List.mem_cons_of_mem c h1)

/-- C9: `replaceFileExtension "path/img.png" "webp"` is `"path/img.webp"`,
and a filename whose last path segment contains no `.` is returned
unchanged. -/
theorem replaceFileExtension_spec :
    replaceFileExtension "path/img.png" "webp" = "path/img.webp" ∧
    ∀ (f e : String), '.' ∉ lastPathSegment f → replaceFileExtension f e = f := by
  refine ⟨by decide, fun f e h => ?_⟩
  have h2 : '.' ∉ f.data.reverse.takeWhile fun c => !(c = '/' || c = '\\') := by
    intro hmem
    exact h (List.mem_reverse.mpr hmem)
  unfold replaceFileExtension
  rw [rfeScan_eq_none_of_no_dot f.data.reverse h2]

/-- Witness for C9 at the extensionless filename `"noext"`. -/
theorem replaceFileExtension_spec_witness :
    '.' ∉ lastPathSegment "noext" ∧ replaceFileExtension "noext" "webp" = "noext" :=
  ⟨by decide, replaceFileExtension_spec.2 "noext" "webp" (by decide)⟩

/-! ## C5 and C10: the minify format-mismatch policy -/

/-- Shared helper: when `isAbsoluteURL` accepts the filename, the
format-mismatch check of `imageminMinify` is skipped, the caller's item is
untouched and the result carries the original warnings. -/
theorem imageminMinify_skip_of_absoluteURL (original : WorkItem) (result : List Nat)
    (ft : FileType) (habs : isAbsoluteURL original.filename = true)
    (_hft : fileTypeFromBuffer result = some ft)
    (_hne : extnameLower original.filename ≠ ft.ext) :
    (imageminMinify original result).1 = original ∧
    ((imageminMinify original result).2.map WorkItem.warnings) = some original.warnings := by
  unfold imageminMinify imageminMismatch
  simp [habs]

/-- C5: on a successful re-encode whose output bytes sniff to a different
extension than the filename declares, `imageminMinify` with a filename not
accepted by `isAbsoluteURL` appends exactly one warning (and no error) to
the item and returns `null`; with a filename accepted by `isAbsoluteURL`
the mismatch is accepted without any warning. -/
theorem imageminMinify_mismatch_policy :
    (∀ (original : WorkItem) (result : List Nat) (ft : FileType),
      isAbsoluteURL original.filename = false →
      fileTypeFromBuffer result = some ft →
      extnameLower original.filename ≠ ft.ext →
      imageminMinify original result =
        ({ original with
            warnings := original.warnings ++ [minifyMismatchMsg ft.ext original.filename] },
          none)) ∧
    (∀ (original : WorkItem) (result : List Nat) (ft : FileType),
      isAbsoluteURL original.filename = true →
      fileTypeFromBuffer result = some ft →
      extnameLower original.filename ≠ ft.ext →
      (imageminMinify original result).1 = original ∧
      ((imageminMinify original result).2.map WorkItem.warnings) = some original.warnings) := by
  constructor
  · intro original result ft habs hft hne
    unfold imageminMinify imageminMismatch
    simp [habs, hft, hne]
  · intro original result ft habs hft hne
    exact imageminMinify_skip_of_absoluteURL original result ft habs hft hne

/-- Witness for C5: a relative `img.png` whose output sniffs as webp gets
the warning and `null`; the same mismatch under an `https:` URL is
accepted with no warning. -/
theorem imageminMinify_mismatch_policy_witness :
    (isAbsoluteURL "img.png" = false ∧
      fileTypeFromBuffer [0, 0, 0, 0, 0, 0, 0, 0, 0x57, 0x45, 0x42, 0x50] =
        some ⟨"webp", "image/webp"⟩ ∧
      extnameLower "img.png" ≠ "webp") ∧
    imageminMinify ⟨"img.png", [1], [], [], []⟩
        [0, 0, 0, 0, 0, 0, 0, 0, 0x57, 0x45, 0x42, 0x50] =
      ({ filename := "img.png", data := [1],
         warnings := [minifyMismatchMsg "webp" "img.png"], errors := [], info := [] },
        none) ∧
    (isAbsoluteURL "https://cdn/img.png" = true ∧
      (imageminMinify ⟨"https://cdn/img.png", [1], [], [], []⟩
          [0, 0, 0, 0, 0, 0, 0, 0, 0x57, 0x45, 0x42, 0x50]).1 =
        ⟨"https://cdn/img.png", [1], [], [], []⟩ ∧
      ((imageminMinify ⟨"https://cdn/img.png", [1], [], [], []⟩
          [0, 0, 0, 0, 0, 0, 0, 0, 0x57, 0x45, 0x42, 0x50]).2.map WorkItem.warnings) =
        some []) :=
  ⟨⟨by decide, by decide, by decide⟩,
    imageminMinify_mismatch_policy.1 _ _ ⟨"webp", "image/webp"⟩ (by decide) (by decide)
      (by decide),
    by decide,
    (imageminMinify_mismatch_policy.2 _ _ ⟨"webp", "image/webp"⟩ (by decide) (by decide)
      (by decide)).1,
    (imageminMinify_mismatch_policy.2 _ _ ⟨"webp", "image/webp"⟩ (by decide) (by decide)
      (by decide)).2⟩

/-- C10: `isAbsoluteURL` also accepts every POSIX absolute path and every
Windows drive path, and for such filenames the output-format-mismatch
check of `imageminMinify` is skipped: the result is returned successfully
with no warning appended. -/
theorem isAbsoluteURL_local_absolute_paths :
    (∀ (rest : List Char), isAbsoluteURL ⟨'/' :: rest⟩ = true) ∧
    (∀ (c : Char) (rest : List Char), isAsciiLetter c = true →
      isAbsoluteURL ⟨c :: ':' :: '\\' :: rest⟩ = true) ∧
    (∀ (original : WorkItem) (result : List Nat) (ft : FileType),
      (posixPathTest original.filename = true ∨ windowsPathTest original.filename = true) →
      fileTypeFromBuffer result = some ft →
      extnameLower original.filename ≠ ft.ext →
      (imageminMinify original result).1 = original ∧
      ((imageminMinify original result).2.map WorkItem.warnings) = some original.warnings) := by
  refine ⟨?_, ?_, ?_⟩
  · intro rest
    simp [isAbsoluteURL, posixPathTest]
  · intro c rest hc
    simp [isAbsoluteURL, windowsPathTest, hc]
  · intro original result ft hloc hft hne
    have habs : isAbsoluteURL original.filename = true := by
      unfold isAbsoluteURL
      rcases hloc with h1 | h1 <;> simp [h1]
    exact imageminMinify_skip_of_absoluteURL original result ft habs hft hne

/-- Witness for C10: a POSIX absolute path and a Windows drive path are
accepted, and the mismatch check is skipped for `/opt/img.png`. -/
theorem isAbsoluteURL_local_absolute_paths_witness :
    isAbsoluteURL ⟨'/' :: "opt/img.png".data⟩ = true ∧
    isAsciiLetter 'C' = true ∧
    isAbsoluteURL ⟨'C' :: ':' :: '\\' :: "x.png".data⟩ = true ∧
    (posixPathTest "/opt/img.png" = true ∨ windowsPathTest "/opt/img.png" = true) ∧
    (imageminMinify ⟨"/opt/img.png", [1], [], [], []⟩
        [0, 0, 0, 0, 0, 0, 0, 0, 0x57, 0x45, 0x42, 0x50]).1 =
      ⟨"/opt/img.png", [1], [], [], []⟩ ∧
    ((imageminMinify ⟨"/opt/img.png", [1], [], [], []⟩
        [0, 0, 0, 0, 0, 0, 0, 0, 0x57, 0x45, 0x42, 0x50]).2.map WorkItem.warnings) =
      some [] :=
  ⟨isAbsoluteURL_local_absolute_paths.1 _, by decide,
    isAbsoluteURL_local_absolute_paths.2.1 'C' _ (by decide),
    by decide,
    (isAbsoluteURL_local_absolute_paths.2.2 _ _ ⟨"webp", "image/webp"⟩ (by decide) (by decide)
      (by decide)).1,
    (isAbsoluteURL_local_absolute_paths.2.2 _ _ ⟨"webp", "image/webp"⟩ (by decide) (by decide)
      (by decide)).2⟩

/-! ## C6: the generate adapters' target-format policy -/

/-- C6 counterexample: `sharpGenerate` with exactly one configured target
format does not return a successful result on every WorkItem — for an
input declared `.txt` (not a supported input format) it returns `null`
and appends one error. -/
theorem sharpGenerate_single_format_counterexample :
    sharpGenerate ⟨"png", [], 1, 1⟩
        { filename := "img.txt", data := [], warnings := [], errors := [], info := [] }
        { encodeOptions := ["webp"], sizeSuffix := none } =
      ({ filename := "img.txt", data := [], warnings := [],
         errors := [sharpUnsupportedMsg "img.txt"], info := [] }, none) ∧
    (sharpGenerate ⟨"png", [], 1, 1⟩
        { filename := "img.txt", data := [], warnings := [], errors := [], info := [] }
        { encodeOptions := ["webp"], sizeSuffix := none }).2 = none := by
  constructor <;> decide

/-- C6 (amended): zero configured target formats yield `null` plus exactly
one error, two or more yield `null` plus exactly one error; exactly one,
on an input the adapter accepts (for sharp: a supported input format, with
no size-suffix callback) and with an extension to replace, yields a
successful result whose filename extension is the produced format. Stated
for both cited adapters, `sharpGenerate` and `squooshGenerate`. -/
theorem generate_adapters_target_format_policy :
    (∀ (env : SharpEnv) (original : WorkItem) (opts : SharpOptions),
      opts.encodeOptions = [] →
      sharpGenerate env original opts =
        ({ original with
            errors := original.errors ++ [generateNoResultMsg "sharp" original.filename] },
          none)) ∧
    (∀ (env : SharpEnv) (original : WorkItem) (opts : SharpOptions) (t1 t2 : String)
      (rest : List String), opts.encodeOptions = t1 :: t2 :: rest →
      sharpGenerate env original opts =
        ({ original with errors := original.errors ++ [generateMultipleMsg original.filename] },
          none)) ∧
    (∀ (env : SharpEnv) (original : WorkItem) (opts : SharpOptions) (t : String) (d : Nat),
      opts.encodeOptions = [t] →
      (List.lookup (extnameLower original.filename) SHARP_GENERATE_FORMATS).isSome = true →
      opts.sizeSuffix = none →
      lastDotIndex original.filename = some d →
      (sharpGenerate env original opts).1 = original ∧
      ((sharpGenerate env original opts).2.map WorkItem.filename) =
        some ((⟨original.filename.data.take d⟩ : String) ++ "." ++ t) ∧
      ((sharpGenerate env original opts).2.map WorkItem.errors) = some original.errors) ∧
    (∀ (encode : String → SquooshEnc) (w h : Nat) (original : WorkItem),
      squooshGenerate encode w h [] original =
        ({ original with
            errors := original.errors ++ [generateNoResultMsg "squoosh" original.filename] },
          none)) ∧
    (∀ (encode : String → SquooshEnc) (w h : Nat) (original : WorkItem) (c1 c2 : String)
      (rest : List String),
      squooshGenerate encode w h (c1 :: c2 :: rest) original =
        ({ original with errors := original.errors ++ [generateMultipleMsg original.filename] },
          none)) ∧
    (∀ (encode : String → SquooshEnc) (w h : Nat) (original : WorkItem) (c : String),
      (squooshGenerate encode w h [c] original).1 = original ∧
      ((squooshGenerate encode w h [c] original).2.map WorkItem.filename) =
        some (replaceFileExtension original.filename (encode c).extension) ∧
      ((squooshGenerate encode w h [c] original).2.map WorkItem.errors) =
        some original.errors) := by
  refine ⟨?_, ?_, ?_, ?_, ?_, ?_⟩
  · intro env original opts h0
    unfold sharpGenerate
    rw [h0]
  · intro env original opts t1 t2 rest h2
    unfold sharpGenerate
    rw [h2]
  · intro env original opts t d h1 hsup hsuf hdot
    unfold sharpGenerate
    rw [h1]
    unfold sharpTransform
    simp only [hsup, Bool.not_true, Bool.false_eq_true, if_false, hsuf, hdot]
    simp [String.append_empty]
  · intro encode w h original
    unfold squooshGenerate
    simp
  · intro encode w h original c1 c2 rest
    unfold squooshGenerate
    simp
  · intro encode w h original c
    unfold squooshGenerate
    simp

/-- Witness for C6 at concrete inputs covering all six clauses. -/
theorem generate_adapters_target_format_policy_witness :
    sharpGenerate ⟨"png", [7], 2, 3⟩ ⟨"a.png", [1], [], [], []⟩
        { encodeOptions := [], sizeSuffix := none } =
      ({ filename := "a.png", data := [1], warnings := [],
         errors := [generateNoResultMsg "sharp" "a.png"], info := [] }, none) ∧
    sharpGenerate ⟨"png", [7], 2, 3⟩ ⟨"a.png", [1], [], [], []⟩
        { encodeOptions := ["webp", "avif"], sizeSuffix := none } =
      ({ filename := "a.png", data := [1], warnings := [],
         errors := [generateMultipleMsg "a.png"], info := [] }, none) ∧
    ((sharpGenerate ⟨"png", [7], 2, 3⟩ ⟨"a.png", [1], [], [], []⟩
        { encodeOptions := ["webp"], sizeSuffix := none }).2.map WorkItem.filename) =
      some ((⟨("a.png" : String).data.take 1⟩ : String) ++ "." ++ "webp") ∧
    squooshGenerate (fun _ => ⟨[9], "webp"⟩) 2 3 [] ⟨"a.png", [1], [], [], []⟩ =
      ({ filename := "a.png", data := [1], warnings := [],
         errors := [generateNoResultMsg "squoosh" "a.png"], info := [] }, none) ∧
    squooshGenerate (fun _ => ⟨[9], "webp"⟩) 2 3 ["webp", "avif"] ⟨"a.png", [1], [], [], []⟩ =
      ({ filename := "a.png", data := [1], warnings := [],
         errors := [generateMultipleMsg "a.png"], info := [] }, none) ∧
    ((squooshGenerate (fun _ => ⟨[9], "webp"⟩) 2 3 ["webp"]
        ⟨"a.png", [1], [], [], []⟩).2.map WorkItem.filename) =
      some (replaceFileExtension "a.png" "webp") :=
  ⟨generate_adapters_target_format_policy.1 _ _ _ rfl,
    generate_adapters_target_format_policy.2.1 _ _ _ "webp" "avif" [] rfl,
    (generate_adapters_target_format_policy.2.2.1 _ _ _ "webp" 1 rfl (by decide) rfl
      (by decide)).2.1,
    generate_adapters_target_format_policy.2.2.2.1 _ _ _ _,
    generate_adapters_target_format_policy.2.2.2.2.1 _ _ _ _ "webp" "avif" [],
    (generate_adapters_target_format_policy.2.2.2.2.2 _ _ _ _ "webp").2.1⟩

/-! ## C4: APNG detection -/

theorem find?_range'_some {p : Nat → Bool} :
    ∀ (n s a : Nat), (List.range' s n).find? p = some a →
      s ≤ a ∧ p a = true ∧ ∀ j, s ≤ j → j < a → p j = false := by
  intro n
  induction n with
  | zero => intro s a h; simp [List.range'] at h
  | succ n ih =>
    intro s a h
    rw [List.range'_succ] at h
    cases hp : p s with
    | true =>
      rw [List.find?_cons_of_pos _ hp] at h
      obtain rfl : s = a := Option.some.inj h
      exact ⟨Nat.le_refl s, hp, fun j hj1 hj2 => absurd (Nat.lt_of_le_of_lt hj1 hj2)
        (Nat.lt_irrefl s)⟩
    | false =>
      rw [List.find?_cons_of_neg _ (by simp [hp])] at h
      obtain ⟨h1, h2, h3⟩ := ih (s + 1) a h
      refine ⟨by omega, h2, fun j hj1 hj2 => ?_⟩
      rcases Nat.eq_or_lt_of_le hj1 with rfl | hlt
      · exact hp
      · exact h3 j (by omega) hj2

theorem findIDATIndex_some (b : List Nat) (f : Nat) (h : findIDATIndex b = some f) :
    33 ≤ f ∧ idatAt b f ∧ ∀ j, 33 ≤ j → j < f → ¬ idatAt b j := by
  unfold findIDATIndex at h
  rw [List.range_eq_range'] at h
  obtain ⟨h1, h2, h3⟩ := find?_range'_some _ 0 f h
  simp only [Bool.and_eq_true, beq_iff_eq, decide_eq_true_eq] at h2
  refine ⟨h2.1.1.1.1, ⟨h2.1.1.1.2, h2.1.1.2, h2.1.2, h2.2⟩, ?_⟩
  intro j hj33 hjf hid
  have hfalse := h3 j (Nat.zero_le j) hjf
  have htrue : (decide (33 ≤ j) && b[j]? == some 0x49 && b[j + 1]? == some 0x44 &&
      b[j + 2]? == some 0x41 && b[j + 3]? == some 0x54) = true := by
    simp only [Bool.and_eq_true, beq_iff_eq, decide_eq_true_eq]
    exact ⟨⟨⟨⟨hj33, hid.1⟩, hid.2.1⟩, hid.2.2.1⟩, hid.2.2.2⟩
  rw [htrue] at hfalse
  cases hfalse

theorem findIDATIndex_none (b : List Nat) (h : findIDATIndex b = none) :
    ∀ j, 33 ≤ j → ¬ idatAt b j := by
  unfold findIDATIndex at h
  rw [List.find?_eq_none] at h
  intro j h33 hid
  obtain ⟨hj, -⟩ := List.getElem?_eq_some.mp hid.1
  have hnot := h j (List.mem_range.mpr hj)
  have htrue : (decide (33 ≤ j) && b[j]? == some 0x49 && b[j + 1]? == some 0x44 &&
      b[j + 2]? == some 0x41 && b[j + 3]? == some 0x54) = true := by
    simp only [Bool.and_eq_true, beq_iff_eq, decide_eq_true_eq]
    exact ⟨⟨⟨⟨h33, hid.1⟩, hid.2.1⟩, hid.2.2.1⟩, hid.2.2.2⟩
  exact hnot htrue

theorem hasACTL_take_drop (b : List Nat) (hi : Nat) (hhi : hi ≤ b.length) :
    hasACTL ((b.take hi).drop 33) = true ↔ actlWithin b hi := by
  have hget : ∀ m, ((b.take hi).drop 33)[m]? =
      if 33 + m < hi then b[33 + m]? else none := by
    intro m
    rw [List.getElem?_drop, List.getElem?_take]
  have hlen : ((b.take hi).drop 33).length = hi - 33 := by
    rw [List.length_drop, List.length_take]
    omega
  unfold hasACTL
  rw [List.any_eq_true]
  constructor
  · rintro ⟨i, hmem, hp⟩
    simp only [Bool.and_eq_true, beq_iff_eq] at hp
    obtain ⟨⟨⟨h61, h63⟩, h54⟩, h4c⟩ := hp
    have hi3 : 33 + (i + 3) < hi := by
      by_contra hc
      rw [hget, if_neg hc] at h4c
      cases h4c
    rw [hget, if_pos (by omega)] at h61
    rw [hget, if_pos (by omega)] at h63
    rw [hget, if_pos (by omega)] at h54
    rw [hget, if_pos (by omega)] at h4c
    refine ⟨33 + i, by omega, by omega, h61, ?_, ?_, ?_⟩
    · rw [show 33 + i + 1 = 33 + (i + 1) from by omega]
      exact h63
    · rw [show 33 + i + 2 = 33 + (i + 2) from by omega]
      exact h54
    · rw [show 33 + i + 3 = 33 + (i + 3) from by omega]
      exact h4c
  · rintro ⟨j, hj33, hj3, ha1, ha2, ha3, ha4⟩
    refine ⟨j - 33, ?_, ?_⟩
    · rw [List.mem_range, hlen]
      omega
    · simp only [Bool.and_eq_true, beq_iff_eq]
      rw [hget (j - 33), if_pos (by omega), show 33 + (j - 33) = j from by omega]
      rw [hget (j - 33 + 1), if_pos (by omega), show 33 + (j - 33 + 1) = j + 1 from by omega]
      rw [hget (j - 33 + 2), if_pos (by omega), show 33 + (j - 33 + 2) = j + 2 from by omega]
      rw [hget (j - 33 + 3), if_pos (by omega), show 33 + (j - 33 + 3) = j + 3 from by omega]
      exact ⟨⟨⟨ha1, ha2⟩, ha3⟩, ha4⟩

/-- A buffer carrying the 8-byte PNG signature always lands in the PNG
branch of the cascade (the preceding JPEG check cannot match). -/
theorem fileTypeFromBuffer_png (b : List Nat)
    (hsig : checkBytes b [0x89, 0x50, 0x4e, 0x47, 0x0d, 0x0a, 0x1a, 0x0a] 0 = true) :
    fileTypeFromBuffer b = some (pngBranch b) := by
  have hs := hsig
  simp only [checkBytes, Bool.and_eq_true, beq_iff_eq] at hs
  have h0 : b[0]? = some 0x89 := hs.1
  have h1 : b[1]? = some 0x50 := hs.2.1
  have hlen : ¬ b.length ≤ 1 := by
    obtain ⟨hlt, -⟩ := List.getElem?_eq_some.mp h1
    omega
  have hjpg : checkBytes b [0xff, 0xd8, 0xff] 0 = false := by
    simp [checkBytes, h0]
  unfold fileTypeFromBuffer
  rw [if_neg hlen]
  simp only [hjpg, Bool.false_eq_true, if_false, hsig, if_true]

/-- C4 counterexample: a PNG-signed buffer with an `acTL` run but no
`IDAT` chunk at all is classified `apng`, not the claimed `png` fallback
(the JS `subarray(33, -1)` still scans up to the second-to-last byte). -/
theorem fileType_apng_no_idat_counterexample :
    findIDATIndex
        ([0x89, 0x50, 0x4e, 0x47, 0x0d, 0x0a, 0x1a, 0x0a] ++ List.replicate 25 0 ++
          [0x61, 0x63, 0x54, 0x4c, 0x00]) = none ∧
    fileTypeFromBuffer
        ([0x89, 0x50, 0x4e, 0x47, 0x0d, 0x0a, 0x1a, 0x0a] ++ List.replicate 25 0 ++
          [0x61, 0x63, 0x54, 0x4c, 0x00]) = some ⟨"apng", "image/apng"⟩ ∧
    (FileType.mk "apng" "image/apng") ≠ ⟨"png", "image/png"⟩ := by
  refine ⟨by decide, by decide, by decide⟩

/-- C4 (amended): on every PNG-signed buffer the sniffer returns `apng` or
`png` and never faults; it returns `apng` exactly when an `acTL` run lies
wholly before the first `IDAT` run at or after offset 33 — or, when no
`IDAT` chunk is located, when an `acTL` run lies wholly inside bytes
`33 .. length - 2` (rather than unconditionally falling back to `png`). -/
theorem fileType_png_apng_characterization (b : List Nat)
    (hsig : checkBytes b [0x89, 0x50, 0x4e, 0x47, 0x0d, 0x0a, 0x1a, 0x0a] 0 = true) :
    (fileTypeFromBuffer b = some ⟨"apng", "image/apng"⟩ ∨
      fileTypeFromBuffer b = some ⟨"png", "image/png"⟩) ∧
    (fileTypeFromBuffer b = some ⟨"apng", "image/apng"⟩ ↔ apngDeclarative b) := by
  rw [fileTypeFromBuffer_png b hsig]
  unfold pngBranch apngScanRegion
  rcases hf : findIDATIndex b with _ | f
  · have hnone := findIDATIndex_none b hf
    have hhi : b.length - 1 ≤ b.length := Nat.sub_le _ _
    constructor
    · by_cases hact : hasACTL ((b.take (b.length - 1)).drop 33) = true
      · rw [if_pos hact]
        exact Or.inl rfl
      · rw [if_neg hact]
        exact Or.inr rfl
    · constructor
      · intro h
        by_cases hact : hasACTL ((b.take (b.length - 1)).drop 33) = true
        · exact Or.inr ⟨hnone, (hasACTL_take_drop b (b.length - 1) hhi).mp hact⟩
        · rw [if_neg hact] at h
          exact absurd h (by decide)
      · intro hdecl
        rcases hdecl with ⟨f2, hf233, hid2, -, -⟩ | ⟨-, hact⟩
        · exact absurd hid2 (hnone f2 hf233)
        · rw [if_pos ((hasACTL_take_drop b (b.length - 1) hhi).mpr hact)]
  · obtain ⟨hf33, hid, hleast⟩ := findIDATIndex_some b f hf
    obtain ⟨hfb, -⟩ := List.getElem?_eq_some.mp hid.1
    have hhi : f ≤ b.length := Nat.le_of_lt hfb
    constructor
    · by_cases hact : hasACTL ((b.take f).drop 33) = true
      · rw [if_pos hact]
        exact Or.inl rfl
      · rw [if_neg hact]
        exact Or.inr rfl
    · constructor
      · intro h
        by_cases hact : hasACTL ((b.take f).drop 33) = true
        · exact Or.inl ⟨f, hf33, hid, hleast, (hasACTL_take_drop b f hhi).mp hact⟩
        · rw [if_neg hact] at h
          exact absurd h (by decide)
      · intro hdecl
        rcases hdecl with ⟨f2, hf233, hid2, hleast2, hact2⟩ | ⟨hno, -⟩
        · have hff2 : f = f2 := by
            rcases Nat.lt_trichotomy f f2 with hlt | heq | hgt
            · exact absurd hid (hleast2 f hf33 hlt)
            · exact heq
            · exact absurd hid2 (hleast f2 hf233 hgt)
          subst hff2
          rw [if_pos ((hasACTL_take_drop b f hhi).mpr hact2)]
        · exact absurd hid (hno f hf33)

/-- Witness for C4 at a PNG-signed buffer whose `acTL` run precedes its
`IDAT` chunk. -/
theorem fileType_png_apng_characterization_witness :
    checkBytes
        ([0x89, 0x50, 0x4e, 0x47, 0x0d, 0x0a, 0x1a, 0x0a] ++ List.replicate 25 0 ++
          [0x61, 0x63, 0x54, 0x4c] ++ [0x49, 0x44, 0x41, 0x54])
        [0x89, 0x50, 0x4e, 0x47, 0x0d, 0x0a, 0x1a, 0x0a] 0 = true ∧
    ((fileTypeFromBuffer
        ([0x89, 0x50, 0x4e, 0x47, 0x0d, 0x0a, 0x1a, 0x0a] ++ List.replicate 25 0 ++
          [0x61, 0x63, 0x54, 0x4c] ++ [0x49, 0x44, 0x41, 0x54]) =
        some ⟨"apng", "image/apng"⟩ ∨
      fileTypeFromBuffer
        ([0x89, 0x50, 0x4e, 0x47, 0x0d, 0x0a, 0x1a, 0x0a] ++ List.replicate 25 0 ++
          [0x61, 0x63, 0x54, 0x4c] ++ [0x49, 0x44, 0x41, 0x54]) =
        some ⟨"png", "image/png"⟩) ∧
    (fileTypeFromBuffer
        ([0x89, 0x50, 0x4e, 0x47, 0x0d, 0x0a, 0x1a, 0x0a] ++ List.replicate 25 0 ++
          [0x61, 0x63, 0x54, 0x4c] ++ [0x49, 0x44, 0x41, 0x54]) =
        some ⟨"apng", "image/apng"⟩ ↔
      apngDeclarative
        ([0x89, 0x50, 0x4e, 0x47, 0x0d, 0x0a, 0x1a, 0x0a] ++ List.replicate 25 0 ++
          [0x61, 0x63, 0x54, 0x4c] ++ [0x49, 0x44, 0x41, 0x54]))) :=
  ⟨by decide, fileType_png_apng_characterization _ (by decide)⟩

/-! ## C8: copy semantics of successful transforms -/

/-- C8 counterexample: a successful `sharpTransform` does NOT contain
every entry of the original's info — the `width` entry is overwritten with
the freshly probed dimension, so the original entry `("width", 100)` is
not carried into the result. -/
theorem sharpTransform_info_overwrite_counterexample :
    ("width", InfoVal.nat 100) ∈
      ({ filename := "a.png", data := [], warnings := [], errors := [],
         info := [("width", InfoVal.nat 100)] } : WorkItem).info ∧
    ((sharpTransform ⟨"png", [5], 50, 60⟩
        { filename := "a.png", data := [], warnings := [], errors := [],
          info := [("width", InfoVal.nat 100)] }
        { encodeOptions := [], sizeSuffix := none } none).2.map
      fun it => Info.lookup it.info "width") = some (some (InfoVal.nat 50)) ∧
    some (InfoVal.nat 50) ≠ some (InfoVal.nat 100) := by
  refine ⟨by decide, by decide, by decide⟩

/-- C8 (amended): a transform adapter that signals success returns a new
WorkItem carrying the original's warnings and errors forward, leaving the
caller's item unmutated; its info preserves every entry of the original's
info other than the stage flag, the provenance list and (for sharp, which
re-probes dimensions) `width`/`height`, sets the stage flag `true`, and
prepends the adapter's name to the provenance list. Stated for the two
cited adapters, `imageminMinify` and `sharpTransform`. -/
theorem transform_success_copy_semantics :
    (∀ (original : WorkItem) (result : List Nat) (updated item : WorkItem),
      imageminMinify original result = (updated, some item) →
      updated = original ∧
      item.warnings = original.warnings ∧
      item.errors = original.errors ∧
      Info.lookup item.info "minimized" = some (.bool true) ∧
      Info.lookup item.info "minimizedBy" =
        some (.strList ("imagemin" :: original.info.getStrList "minimizedBy")) ∧
      (∀ (k : String) (v : InfoVal), k ≠ "minimized" → k ≠ "minimizedBy" →
        Info.lookup original.info k = some v → Info.lookup item.info k = some v)) ∧
    (∀ (env : SharpEnv) (original : WorkItem) (opts : SharpOptions)
      (targetFormat : Option String) (updated item : WorkItem),
      sharpTransform env original opts targetFormat = (updated, some item) →
      updated = original ∧
      item.warnings = original.warnings ∧
      item.errors = original.errors ∧
      Info.lookup item.info (processedFlagKey targetFormat) = some (.bool true) ∧
      Info.lookup item.info (processedByKey targetFormat) =
        some (.strList ("sharp" :: original.info.getStrList (processedByKey targetFormat))) ∧
      (∀ (k : String) (v : InfoVal), k ≠ "width" → k ≠ "height" →
        k ≠ processedFlagKey targetFormat → k ≠ processedByKey targetFormat →
        Info.lookup original.info k = some v → Info.lookup item.info k = some v)) := by
  constructor
  · intro original result updated item h
    unfold imageminMinify at h
    rcases hm : imageminMismatch original result with _ | extOut
    · rw [hm] at h
      simp only [Prod.mk.injEq, Option.some.injEq] at h
      obtain ⟨hupd, hitem⟩ := h
      subst hitem
      refine ⟨hupd.symm, rfl, rfl, ?_, ?_, ?_⟩
      · rw [Info.lookup_set, if_neg (by decide), Info.lookup_set, if_pos rfl]
      · rw [Info.lookup_set, if_pos rfl]
      · intro k v hk1 hk2 hv
        rw [Info.lookup_set, if_neg hk2, Info.lookup_set, if_neg hk1]
        exact hv
    · rw [hm] at h
      simp at h
  · intro env original opts targetFormat updated item h
    unfold sharpTransform at h
    cases targetFormat with
    | none =>
      by_cases hsup :
          (List.lookup (extnameLower original.filename) SHARP_MINIFY_FORMATS).isSome = true
      · simp only [hsup, Bool.not_true, Bool.false_eq_true, if_false, Prod.mk.injEq,
          Option.some.injEq] at h
        obtain ⟨hupd, hitem⟩ := h
        subst hitem
        refine ⟨hupd.symm, rfl, rfl, ?_, ?_, ?_⟩
        · simp only [processedFlagKey]
          rw [Info.lookup_set, if_neg (by decide), Info.lookup_set, if_pos rfl]
        · simp only [processedByKey]
          rw [Info.lookup_set, if_pos rfl]
        · intro k v hk1 hk2 hk3 hk4 hv
          simp only [processedFlagKey] at hk3
          simp only [processedByKey] at hk4
          rw [Info.lookup_set, if_neg hk4, Info.lookup_set, if_neg hk3,
            Info.lookup_set, if_neg hk2, Info.lookup_set, if_neg hk1]
          exact hv
      · rw [Bool.not_eq_true] at hsup
        simp only [hsup, Bool.not_false, if_true] at h
        simp at h
    | some fmt =>
      by_cases hsup :
          (List.lookup (extnameLower original.filename) SHARP_GENERATE_FORMATS).isSome = true
      · simp only [hsup, Bool.not_true, Bool.false_eq_true, if_false, Prod.mk.injEq,
          Option.some.injEq] at h
        obtain ⟨hupd, hitem⟩ := h
        subst hitem
        refine ⟨hupd.symm, rfl, rfl, ?_, ?_, ?_⟩
        · simp only [processedFlagKey]
          rw [Info.lookup_set, if_neg (by decide), Info.lookup_set, if_pos rfl]
        · simp only [processedByKey]
          rw [Info.lookup_set, if_pos rfl]
        · intro k v hk1 hk2 hk3 hk4 hv
          simp only [processedFlagKey] at hk3
          simp only [processedByKey] at hk4
          rw [Info.lookup_set, if_neg hk4, Info.lookup_set, if_neg hk3,
            Info.lookup_set, if_neg hk2, Info.lookup_set, if_neg hk1]
          exact hv
      · rw [Bool.not_eq_true] at hsup
        simp only [hsup, Bool.not_false, if_true] at h
        simp at h

/-- Witness for C8: a concrete successful minify keeps the unrelated
`"quality"` entry, sets the stage flag and prepends the provenance. -/
theorem transform_success_copy_semantics_witness :
    imageminMinify ⟨"img.png", [1], ["w0"], ["e0"], [("quality", InfoVal.nat 9)]⟩
        [0x89, 0x50, 0x4e, 0x47, 0x0d, 0x0a, 0x1a, 0x0a] =
      (⟨"img.png", [1], ["w0"], ["e0"], [("quality", InfoVal.nat 9)]⟩,
        some
          { filename := "img.png", data := [0x89, 0x50, 0x4e, 0x47, 0x0d, 0x0a, 0x1a, 0x0a]
            warnings := ["w0"], errors := ["e0"]
            info := [("quality", InfoVal.nat 9), ("minimized", InfoVal.bool true),
              ("minimizedBy", InfoVal.strList ["imagemin"])] }) ∧
    (("quality" : String) ≠ "minimized" ∧ ("quality" : String) ≠ "minimizedBy" ∧
      Info.lookup [("quality", InfoVal.nat 9)] "quality" = some (InfoVal.nat 9)) ∧
    Info.lookup
      [("quality", InfoVal.nat 9), ("minimized", InfoVal.bool true),
        ("minimizedBy", InfoVal.strList ["imagemin"])] "quality" = some (InfoVal.nat 9) :=
  ⟨by decide, ⟨by decide, by decide, by decide⟩,
    (transform_success_copy_semantics.1
      ⟨"img.png", [1], ["w0"], ["e0"], [("quality", InfoVal.nat 9)]⟩
      [0x89, 0x50, 0x4e, 0x47, 0x0d, 0x0a, 0x1a, 0x0a]
      ⟨"img.png", [1], ["w0"], ["e0"], [("quality", InfoVal.nat 9)]⟩
      { filename := "img.png", data := [0x89, 0x50, 0x4e, 0x47, 0x0d, 0x0a, 0x1a, 0x0a]
        warnings := ["w0"], errors := ["e0"]
        info := [("quality", InfoVal.nat 9), ("minimized", InfoVal.bool true),
          ("minimizedBy", InfoVal.strList ["imagemin"])] }
      (by decide)).2.2.2.2.2
      "quality" (InfoVal.nat 9) (by decide) (by decide) (by decide)⟩


/-! ## Scheduler lemmas -/

theorem okCount_nil (tasks : List (Except ε α)) : okCount tasks [] = 0 := rfl

theorem okCount_cons (tasks : List (Except ε α)) (j : Nat) (rest : List Nat) :
    okCount tasks (j :: rest) = (if taskOk tasks j then 1 else 0) + okCount tasks rest := by
  unfold okCount
  rw [List.filter_cons]
  cases h : taskOk tasks j <;> simp [h, Nat.add_comm]

theorem okCount_le_length (tasks : List (Except ε α)) (done : List Nat) :
    okCount tasks done ≤ done.length :=
  List.length_filter_le _ _

theorem okCount_append_single (tasks : List (Except ε α)) (done : List Nat) (i : Nat) :
    okCount tasks (done ++ [i]) = okCount tasks done + (if taskOk tasks i then 1 else 0) := by
  unfold okCount
  rw [List.filter_append, List.length_append]
  cases h : taskOk tasks i <;> simp [List.filter, h]

theorem firstError_append (tasks : List (Except ε α)) (l1 l2 : List Nat) :
    firstError tasks (l1 ++ l2) =
      match firstError tasks l1 with
      | some e => some e
      | none => firstError tasks l2 := by
  induction l1 with
  | nil => simp [firstError]
  | cons j rest ih =>
    rw [List.cons_append]
    cases htj : tasks[j]? with
    | none => simp [firstError, htj, ih]
    | some t => cases t <;> simp [firstError, htj, ih]

theorem firstError_eq_none_iff (tasks : List (Except ε α)) (done : List Nat)
    (hb : ∀ j ∈ done, j < tasks.length) :
    firstError tasks done = none ↔ okCount tasks done = done.length := by
  induction done with
  | nil => simp [firstError, okCount_nil]
  | cons j rest ih =>
    have hj : j < tasks.length := hb j (List.mem_cons_self j rest)
    have hb2 : ∀ x ∈ rest, x < tasks.length := fun x hx => hb x (List.mem_cons_of_mem _ hx)
    have ht : tasks[j]? = some tasks[j] := List.getElem?_eq_getElem hj
    cases htv : tasks[j] with
    | ok v =>
      have ht2 : tasks[j]? = some (.ok v) := by rw [ht, htv]
      have htok : taskOk tasks j = true := by simp [taskOk, ht2]
      rw [okCount_cons, htok]
      simp only [firstError, ht2, if_true]
      rw [ih hb2]
      simp only [List.length_cons]
      omega
    | error e =>
      have ht2 : tasks[j]? = some (.error e) := by rw [ht, htv]
      have htok : taskOk tasks j = false := by simp [taskOk, ht2]
      rw [okCount_cons, htok]
      simp only [Bool.false_eq_true, if_false, Nat.zero_add, firstError, ht2,
        List.length_cons]
      constructor
      · intro h; cases h
      · intro h
        have hle := okCount_le_length tasks rest
        exact absurd h (by omega)

theorem nodup_lt_length_le (l : List Nat) (n : Nat) (hnd : l.Nodup)
    (hlt : ∀ x ∈ l, x < n) : l.length ≤ n := by
  have hsub : l ⊆ List.range n := fun x hx => List.mem_range.mpr (hlt x hx)
  have h := (List.subperm_of_subset hnd hsub).length_le
  simpa using h

theorem mem_of_nodup_length (l : List Nat) (n : Nat) (hnd : l.Nodup)
    (hlt : ∀ x ∈ l, x < n) (hlen : l.length = n) : ∀ j, j < n → j ∈ l := by
  have hsub : l ⊆ List.range n := fun x hx => List.mem_range.mpr (hlt x hx)
  obtain ⟨l2, hperm, hsl⟩ := List.subperm_of_subset hnd hsub
  have hl2 : l2 = List.range n := by
    refine hsl.eq_of_length ?_
    rw [hperm.length_eq, hlen, List.length_range]
  intro j hj
  exact hperm.mem_iff.mp (by rw [hl2]; exact List.mem_range.mpr hj)


theorem iterateNext_blank (n k : Nat) :
    iterateNext (ε := ε) (α := α) n k ⟨0, [], List.replicate n none, 0, none⟩ =
      ⟨min n k, List.range (min n k), List.replicate n none, 0,
        if n = 0 ∧ 1 ≤ k then some (.ok (List.replicate n none)) else none⟩ := by
  induction k with
  | zero => simp [iterateNext]
  | succ k ih =>
    rw [iterateNext, ih]
    by_cases hk : k < n
    · have h1 : min n k = k := Nat.min_eq_right (Nat.le_of_lt hk)
      have h2 : min n (k + 1) = k + 1 := Nat.min_eq_right hk
      have hn : ¬ n = 0 := by omega
      rw [h1, h2]
      simp [schedNext, hk, hn, List.range_succ]
    · have hnk : n ≤ k := Nat.le_of_not_lt hk
      have h1 : min n k = n := Nat.min_eq_left hnk
      have h2 : min n (k + 1) = n := Nat.min_eq_left (Nat.le_succ_of_le hnk)
      rw [h1, h2]
      by_cases hn : n = 0
      · subst hn
        by_cases hk1 : 1 ≤ k
        · simp [schedNext, hk1]
        · have hk0 : k = 0 := by omega
          subst hk0
          simp [schedNext]
      · have hn2 : ¬ (0 : Nat) = n := fun h => hn h.symm
        simp [schedNext, Nat.lt_irrefl, hn, hn2]

theorem schedInv_init (tasks : List (Except ε α)) (limit : Nat) (hlim : 1 ≤ limit) :
    SchedInv tasks limit [] (throttleInit tasks limit) := by
  unfold throttleInit
  rw [iterateNext_blank]
  refine ⟨List.nodup_nil, ?_, ?_, List.nodup_range _, ?_, ?_, ?_, ?_, ?_, ?_⟩
  · intro j hj
    cases hj
  · show min tasks.length limit = min tasks.length (okCount tasks [] + limit)
    rw [okCount_nil, Nat.zero_add]
  · intro j
    show j ∈ List.range (min tasks.length limit) ↔ _
    simp [List.mem_range]
  · show (List.range (min tasks.length limit)).length + 0 = min tasks.length limit
    simp
  · show (List.replicate tasks.length (none : Option α)).length = tasks.length
    simp
  · intro j hj
    show (List.replicate tasks.length (none : Option α))[j]? = some (expectedSlot tasks [] j)
    rw [List.getElem?_replicate, if_pos hj]
    unfold expectedSlot
    simp
  · show 0 = okCount tasks []
    rw [okCount_nil]
  · show (if tasks.length = 0 ∧ 1 ≤ limit then
        some (.ok (List.replicate tasks.length (none : Option α))) else none) =
      expectedSettled tasks []
    unfold expectedSettled
    by_cases hn : tasks.length = 0
    · have htn : tasks = [] := List.eq_nil_of_length_eq_zero hn
      subst htn
      simp [hlim, firstError, okCount_nil]
    · rw [if_neg (fun h => hn h.1)]
      have h0 : firstError tasks [] = none := rfl
      rw [h0]
      rw [if_neg (by rw [okCount_nil]; omega)]


theorem schedInv_step (tasks : List (Except ε α)) (limit : Nat) (done : List Nat)
    (s : SchedState ε α) (i : Nat) (hinv : SchedInv tasks limit done s)
    (hlim : 1 ≤ limit) (hi : i ∈ s.inFlight) :
    SchedInv tasks limit (done ++ [i]) (schedComplete tasks i s) := by
  obtain ⟨hin, hnotdone⟩ := (hinv.inflight_mem i).mp hi
  have hnext_le : s.nextIndex ≤ tasks.length := by
    rw [hinv.next_eq]; exact Nat.min_le_left _ _
  have hiN : i < tasks.length := Nat.lt_of_lt_of_le hin hnext_le
  have hti : tasks[i]? = some tasks[i] := List.getElem?_eq_getElem hiN
  have hdnodup : (done ++ [i]).Nodup := by
    rw [List.nodup_append]
    refine ⟨hinv.done_nodup, List.nodup_singleton i, ?_⟩
    intro a ha hb
    rw [List.mem_singleton] at hb
    subst hb
    exact hnotdone ha
  have hboundD : ∀ j ∈ done ++ [i], j < tasks.length := by
    intro j hj
    rcases List.mem_append.mp hj with hj | hj
    · exact Nat.lt_of_lt_of_le (hinv.done_lt j hj) hnext_le
    · rw [List.mem_singleton] at hj; subst hj; exact hiN
  have hmem_er : ∀ j, j ∈ s.inFlight.erase i ↔ (j ≠ i ∧ j ∈ s.inFlight) :=
    fun j => hinv.inflight_nodup.mem_erase_iff
  have her_nodup : (s.inFlight.erase i).Nodup := hinv.inflight_nodup.erase i
  have her_len : (s.inFlight.erase i).length + 1 = s.inFlight.length := by
    rw [List.length_erase_of_mem hi]
    have h1 : 0 < s.inFlight.length := List.length_pos.mpr (List.ne_nil_of_mem hi)
    omega
  have hdoneLt : ∀ j ∈ done ++ [i], j < s.nextIndex := by
    intro j hj
    rcases List.mem_append.mp hj with hj | hj
    · exact hinv.done_lt j hj
    · rw [List.mem_singleton] at hj; subst hj; exact hin
  have hmemNew : ∀ j, j ∈ s.inFlight.erase i ↔ (j < s.nextIndex ∧ j ∉ done ++ [i]) := by
    intro j
    rw [hmem_er, hinv.inflight_mem]
    constructor
    · rintro ⟨hji, hjf, hjd⟩
      refine ⟨hjf, fun hc => ?_⟩
      rcases List.mem_append.mp hc with hc | hc
      · exact hjd hc
      · exact hji (List.mem_singleton.mp hc)
    · rintro ⟨hjlt, hjnot⟩
      refine ⟨fun hc => hjnot (by rw [hc]; exact List.mem_append.mpr (Or.inr (List.mem_singleton.mpr rfl))), hjlt,
        fun hc => hjnot (List.mem_append.mpr (Or.inl hc))⟩
  have hlenNew : (s.inFlight.erase i).length + (done ++ [i]).length = s.nextIndex := by
    rw [List.length_append]
    have := hinv.inflight_len
    simp only [List.length_singleton]
    omega
  unfold schedComplete
  rw [if_pos hi]
  cases htv : tasks[i] with
  | ok v =>
    have hti2 : tasks[i]? = some (.ok v) := by rw [hti, htv]
    have htok : taskOk tasks i = true := by simp [taskOk, hti2]
    have hok2 : okCount tasks (done ++ [i]) = okCount tasks done + 1 := by
      rw [okCount_append_single, htok]; simp
    have hfe2 : firstError tasks (done ++ [i]) = firstError tasks done := by
      rw [firstError_append]
      cases hfd : firstError tasks done with
      | some e => rfl
      | none => simp [firstError, hti2]
    have hslot : ∀ j, expectedSlot tasks (done ++ [i]) j =
        if j = i then some v else expectedSlot tasks done j := by
      intro j
      by_cases hj : j = i
      · subst hj
        unfold expectedSlot
        rw [if_pos (List.mem_append.mpr (Or.inr (List.mem_singleton.mpr rfl))), if_pos rfl,
          hti2]
      · unfold expectedSlot
        rw [if_neg hj]
        by_cases hjd : j ∈ done
        · rw [if_pos (List.mem_append.mpr (Or.inl hjd)), if_pos hjd]
        · rw [if_neg (fun h => by
              rcases List.mem_append.mp h with h | h
              · exact hjd h
              · exact hj (List.mem_singleton.mp h)),
            if_neg hjd]
    have hresAt : ∀ j, j < tasks.length →
        (s.result.set i (some v))[j]? = some (expectedSlot tasks (done ++ [i]) j) := by
      intro j hj
      rw [List.getElem?_set, hslot j]
      by_cases hji : i = j
      · rw [if_pos hji, if_pos (by rw [hinv.result_len]; exact hiN),
          if_pos hji.symm]
      · rw [if_neg hji, hinv.result_at j hj, if_neg (fun h => hji h.symm)]
    simp only [hti2]
    by_cases hlt : s.nextIndex < tasks.length
    · have hmin : s.nextIndex = okCount tasks done + limit := by
        have h1 := hinv.next_eq
        omega
      have hstep : schedNext tasks.length
          (⟨s.nextIndex, s.inFlight.erase i, s.result.set i (some v), s.fulfilled + 1,
            s.settled⟩ : SchedState ε α) =
          ⟨s.nextIndex + 1, s.inFlight.erase i ++ [s.nextIndex], s.result.set i (some v),
            s.fulfilled + 1, s.settled⟩ := by
        simp [schedNext, hlt]
      rw [hstep]
      refine ⟨hdnodup, ?_, ?_, ?_, ?_, ?_, ?_, ?_, ?_, ?_⟩
      · intro j hj
        exact Nat.lt_succ_of_lt (hdoneLt j hj)
      · show s.nextIndex + 1 = min tasks.length (okCount tasks (done ++ [i]) + limit)
        rw [hok2]
        omega
      · show (s.inFlight.erase i ++ [s.nextIndex]).Nodup
        rw [List.nodup_append]
        refine ⟨her_nodup, List.nodup_singleton _, ?_⟩
        intro a ha hb
        rw [List.mem_singleton] at hb
        subst hb
        have h1 := ((hmem_er _).mp ha).2
        have h2 := ((hinv.inflight_mem _).mp h1).1
        exact Nat.lt_irrefl _ h2
      · intro j
        show j ∈ s.inFlight.erase i ++ [s.nextIndex] ↔
          (j < s.nextIndex + 1 ∧ j ∉ done ++ [i])
        rw [List.mem_append, List.mem_singleton, hmemNew]
        constructor
        · rintro (⟨hjlt, hjnot⟩ | rfl)
          · exact ⟨Nat.lt_succ_of_lt hjlt, hjnot⟩
          · refine ⟨Nat.lt_succ_self _, fun hc => ?_⟩
            exact Nat.lt_irrefl _ (hdoneLt _ hc)
        · rintro ⟨hjlt, hjnot⟩
          by_cases hje : j = s.nextIndex
          · exact Or.inr hje
          · exact Or.inl ⟨by omega, hjnot⟩
      · show (s.inFlight.erase i ++ [s.nextIndex]).length + (done ++ [i]).length =
          s.nextIndex + 1
        rw [List.length_append]
        simp only [List.length_singleton]
        omega
      · show (s.result.set i (some v)).length = tasks.length
        rw [List.length_set]; exact hinv.result_len
      · exact hresAt
      · show s.fulfilled + 1 = okCount tasks (done ++ [i])
        rw [hok2, hinv.fulfilled_eq]
      · show s.settled = expectedSettled tasks (done ++ [i])
        rw [hinv.settled_eq]
        unfold expectedSettled
        rw [hfe2]
        cases hfd : firstError tasks done with
        | some e => rfl
        | none =>
          have hlt2 : okCount tasks done + limit < tasks.length + limit := by omega
          rw [if_neg (by omega), if_neg (by rw [hok2]; omega)]
    · have hnn : s.nextIndex = tasks.length := by omega
      by_cases hful : s.fulfilled + 1 = tasks.length
      · have hokn : okCount tasks (done ++ [i]) = tasks.length := by
          rw [hok2, ← hinv.fulfilled_eq]; omega
        have hlenD : (done ++ [i]).length = tasks.length := by
          have h1 := okCount_le_length tasks (done ++ [i])
          have h2 := nodup_lt_length_le (done ++ [i]) tasks.length hdnodup hboundD
          omega
        have hcover : ∀ j, j < tasks.length → j ∈ done ++ [i] :=
          mem_of_nodup_length _ _ hdnodup hboundD hlenD
        have hfeN : firstError tasks (done ++ [i]) = none :=
          (firstError_eq_none_iff tasks _ hboundD).mpr (by rw [hokn, hlenD])
        have hfdN : firstError tasks done = none := by rw [← hfe2]; exact hfeN
        have hsetN : s.settled = none := by
          rw [hinv.settled_eq]
          unfold expectedSettled
          rw [hfdN]
          rw [if_neg (by rw [← hinv.fulfilled_eq]; omega)]
        have hresfull : s.result.set i (some v) =
            tasks.map (fun t => match t with | .ok w => some w | .error _ => none) := by
          apply List.ext_getElem?
          intro m
          rw [List.getElem?_map]
          by_cases hm : m < tasks.length
          · rw [hresAt m hm, List.getElem?_eq_getElem hm]
            rw [hslot m]
            by_cases hmi : m = i
            · subst hmi
              rw [if_pos rfl, htv]
              rfl
            · rw [if_neg hmi]
              have hmD : m ∈ done := by
                rcases List.mem_append.mp (hcover m hm) with h | h
                · exact h
                · exact absurd (List.mem_singleton.mp h) hmi
              unfold expectedSlot
              rw [if_pos hmD, List.getElem?_eq_getElem hm]
              cases tasks[m] <;> rfl
          · rw [List.getElem?_eq_none (by rw [List.length_set, hinv.result_len]; omega),
              List.getElem?_eq_none (by omega)]
            rfl
        have hstep : schedNext tasks.length
            (⟨s.nextIndex, s.inFlight.erase i, s.result.set i (some v), s.fulfilled + 1,
              s.settled⟩ : SchedState ε α) =
            ⟨s.nextIndex, s.inFlight.erase i, s.result.set i (some v), s.fulfilled + 1,
              some (.ok (s.result.set i (some v)))⟩ := by
          simp [schedNext, hlt, hful, hsetN]
        rw [hstep]
        refine ⟨hdnodup, hdoneLt, ?_, her_nodup, hmemNew, hlenNew, ?_, hresAt, ?_, ?_⟩
        · show s.nextIndex = min tasks.length (okCount tasks (done ++ [i]) + limit)
          rw [hokn]
          omega
        · show (s.result.set i (some v)).length = tasks.length
          rw [List.length_set]; exact hinv.result_len
        · show s.fulfilled + 1 = okCount tasks (done ++ [i])
          rw [hok2, hinv.fulfilled_eq]
        · show some (.ok (s.result.set i (some v))) = expectedSettled tasks (done ++ [i])
          unfold expectedSettled
          rw [hfeN, if_pos (by rw [hokn])]
          rw [hresfull]
          rfl
      · have hstep : schedNext tasks.length
            (⟨s.nextIndex, s.inFlight.erase i, s.result.set i (some v), s.fulfilled + 1,
              s.settled⟩ : SchedState ε α) =
            ⟨s.nextIndex, s.inFlight.erase i, s.result.set i (some v), s.fulfilled + 1,
              s.settled⟩ := by
          simp [schedNext, hlt, hful]
        rw [hstep]
        refine ⟨hdnodup, hdoneLt, ?_, her_nodup, hmemNew, hlenNew, ?_, hresAt, ?_, ?_⟩
        · show s.nextIndex = min tasks.length (okCount tasks (done ++ [i]) + limit)
          have h1 := hinv.next_eq
          rw [hok2]
          omega
        · show (s.result.set i (some v)).length = tasks.length
          rw [List.length_set]; exact hinv.result_len
        · show s.fulfilled + 1 = okCount tasks (done ++ [i])
          rw [hok2, hinv.fulfilled_eq]
        · show s.settled = expectedSettled tasks (done ++ [i])
          rw [hinv.settled_eq]
          unfold expectedSettled
          rw [hfe2]
          cases hfd : firstError tasks done with
          | some e => rfl
          | none =>
            have hokd : okCount tasks done ≠ tasks.length := by
              intro hc
              have h1 := okCount_le_length tasks done
              have h2 := nodup_lt_length_le done tasks.length hinv.done_nodup
                (fun x hx => Nat.lt_of_lt_of_le (hinv.done_lt x hx) hnext_le)
              have hdl : done.length = tasks.length := by omega
              have hfl := hinv.inflight_len
              have hz : s.inFlight.length = 0 := by omega
              rw [List.length_eq_zero.mp hz] at hi
              cases hi
            rw [if_neg hokd, if_neg (by rw [hok2, ← hinv.fulfilled_eq]; omega)]
  | error e =>
    have hti2 : tasks[i]? = some (.error e) := by rw [hti, htv]
    have htok : taskOk tasks i = false := by simp [taskOk, hti2]
    have hok2 : okCount tasks (done ++ [i]) = okCount tasks done := by
      rw [okCount_append_single, htok]; simp
    have hslot : ∀ j, expectedSlot tasks (done ++ [i]) j = expectedSlot tasks done j := by
      intro j
      unfold expectedSlot
      by_cases hj : j = i
      · subst hj
        rw [if_pos (List.mem_append.mpr (Or.inr (List.mem_singleton.mpr rfl))),
          if_neg hnotdone, hti2]
      · by_cases hjd : j ∈ done
        · rw [if_pos (List.mem_append.mpr (Or.inl hjd)), if_pos hjd]
        · rw [if_neg (fun h => by
              rcases List.mem_append.mp h with h | h
              · exact hjd h
              · exact hj (List.mem_singleton.mp h)),
            if_neg hjd]
    have hresAt : ∀ j, j < tasks.length →
        s.result[j]? = some (expectedSlot tasks (done ++ [i]) j) := by
      intro j hj
      rw [hslot j]
      exact hinv.result_at j hj
    simp only [hti2]
    cases hfd : firstError tasks done with
    | some e0 =>
      have hset : s.settled = some (.error e0) := by
        rw [hinv.settled_eq]; unfold expectedSettled; rw [hfd]
      have hfe2 : firstError tasks (done ++ [i]) = some e0 := by
        rw [firstError_append, hfd]
      simp only [hset]
      refine ⟨hdnodup, hdoneLt, ?_, her_nodup, hmemNew, hlenNew, hinv.result_len, hresAt,
        ?_, ?_⟩
      · show s.nextIndex = min tasks.length (okCount tasks (done ++ [i]) + limit)
        rw [hok2]
        exact hinv.next_eq
      · show s.fulfilled = okCount tasks (done ++ [i])
        rw [hok2]
        exact hinv.fulfilled_eq
      · show some (.error e0) = expectedSettled tasks (done ++ [i])
        unfold expectedSettled
        rw [hfe2]
    | none =>
      have hokd : okCount tasks done ≠ tasks.length := by
        intro hc
        have h1 := okCount_le_length tasks done
        have h2 := nodup_lt_length_le done tasks.length hinv.done_nodup
          (fun x hx => Nat.lt_of_lt_of_le (hinv.done_lt x hx) hnext_le)
        have hdl : done.length = tasks.length := by omega
        have hfl := hinv.inflight_len
        have hz : s.inFlight.length = 0 := by omega
        rw [List.length_eq_zero.mp hz] at hi
        cases hi
      have hset : s.settled = none := by
        rw [hinv.settled_eq]; unfold expectedSettled; rw [hfd]; rw [if_neg hokd]
      have hfe2 : firstError tasks (done ++ [i]) = some e := by
        rw [firstError_append, hfd]
        simp [firstError, hti2]
      simp only [hset]
      refine ⟨hdnodup, hdoneLt, ?_, her_nodup, hmemNew, hlenNew, hinv.result_len, hresAt,
        ?_, ?_⟩
      · show s.nextIndex = min tasks.length (okCount tasks (done ++ [i]) + limit)
        rw [hok2]
        exact hinv.next_eq
      · show s.fulfilled = okCount tasks (done ++ [i])
        rw [hok2]
        exact hinv.fulfilled_eq
      · show some (.error e) = expectedSettled tasks (done ++ [i])
        unfold expectedSettled
        rw [hfe2]


theorem schedInv_run (tasks : List (Except ε α)) (limit : Nat) (hlim : 1 ≤ limit) :
    ∀ (order done : List Nat) (s : SchedState ε α),
      SchedInv tasks limit done s → validFrom tasks s order = true →
      SchedInv tasks limit (done ++ order)
        (order.foldl (fun t j => schedComplete tasks j t) s) := by
  intro order
  induction order with
  | nil =>
    intro done s h _
    simpa using h
  | cons j rest ih =>
    intro done s hinv hv
    rw [validFrom, Bool.and_eq_true] at hv
    obtain ⟨h1, h2⟩ := hv
    have hj : j ∈ s.inFlight := of_decide_eq_true h1
    have hstep := schedInv_step tasks limit done s j hinv hlim hj
    have hrest := ih (done ++ [j]) (schedComplete tasks j s) hstep h2
    rw [List.append_assoc] at hrest
    simpa using hrest

theorem schedInv_runSched (tasks : List (Except ε α)) (limit : Nat) (order : List Nat)
    (hlim : 1 ≤ limit) (hv : validFrom tasks (throttleInit tasks limit) order = true) :
    SchedInv tasks limit order (runSched tasks limit order) := by
  have h := schedInv_run tasks limit hlim order [] (throttleInit tasks limit)
    (schedInv_init tasks limit hlim) hv
  simpa [runSched] using h

theorem validFrom_append (tasks : List (Except ε α)) (l1 l2 : List Nat) :
    ∀ (s : SchedState ε α), validFrom tasks s (l1 ++ l2) =
      (validFrom tasks s l1 &&
        validFrom tasks (l1.foldl (fun t j => schedComplete tasks j t) s) l2) := by
  induction l1 with
  | nil => intro s; simp [validFrom]
  | cons j rest ih =>
    intro s
    rw [List.cons_append, validFrom, validFrom, ih, Bool.and_assoc]
    rfl

theorem firstError_map_ok (vals : List α) (order : List Nat) :
    firstError (ε := ε) (vals.map Except.ok) order = none := by
  induction order with
  | nil => rfl
  | cons j rest ih =>
    cases hv : vals[j]? with
    | none =>
      have hjj : ((vals.map Except.ok : List (Except ε α)))[j]? = none := by
        rw [List.getElem?_map, hv]; rfl
      simp [firstError, hjj, ih]
    | some w =>
      have hjj : ((vals.map Except.ok : List (Except ε α)))[j]? = some (.ok w) := by
        rw [List.getElem?_map, hv]; rfl
      simp [firstError, hjj, ih]


theorem validFrom_limit_one_range (tasks : List (Except ε α)) :
    ∀ (order : List Nat) (k : Nat) (s : SchedState ε α),
      SchedInv tasks 1 (List.range k) s → validFrom tasks s order = true →
      order = List.range' k order.length := by
  intro order
  induction order with
  | nil => intro k s _ _; rfl
  | cons j rest ih =>
    intro k s hinv hv
    rw [validFrom, Bool.and_eq_true] at hv
    obtain ⟨h1, h2⟩ := hv
    have hj : j ∈ s.inFlight := of_decide_eq_true h1
    obtain ⟨hjlt, hjnot⟩ := (hinv.inflight_mem j).mp hj
    have hjk : k ≤ j := by
      by_contra hc
      exact hjnot (List.mem_range.mpr (by omega))
    have hok_le : okCount tasks (List.range k) ≤ k := by
      have := okCount_le_length tasks (List.range k)
      simpa using this
    have hnle : s.nextIndex ≤ okCount tasks (List.range k) + 1 := by
      rw [hinv.next_eq]
      omega
    have hjeq : j = k := by omega
    subst hjeq
    have hstep := schedInv_step tasks 1 (List.range j) s j hinv (Nat.le_refl 1) hj
    rw [← List.range_succ] at hstep
    have hrest := ih (j + 1) (schedComplete tasks j s) hstep h2
    rw [List.length_cons, List.range'_succ]
    exact congrArg (List.cons j) hrest

/-- C1: with every task succeeding, any complete run of `throttleAll`
(delivered in any order) resolves with exactly one result slot per task,
the slot at index `i` holding task `i`'s value; the empty task list
resolves immediately at start-up with the empty array. -/
theorem throttleAll_all_success_ordered {ε α : Type} (vals : List α) (limit : Nat)
    (hlim : 1 ≤ limit) (order : List Nat)
    (hvalid : validFrom (ε := ε) (vals.map Except.ok)
      (throttleInit (vals.map Except.ok) limit) order = true)
    (hfin : (runSched (ε := ε) (vals.map Except.ok) limit order).inFlight = []) :
    (runSched (ε := ε) (vals.map Except.ok) limit order).settled =
      some (.ok (vals.map some)) ∧
    (vals.map (some (α := α))).length = vals.length ∧
    (vals = [] →
      (throttleInit (ε := ε) (vals.map Except.ok) limit).settled = some (.ok [])) := by
  have hinv := schedInv_runSched (vals.map Except.ok) limit order hlim hvalid
  have hlen_map : (vals.map (Except.ok (ε := ε))).length = vals.length :=
    List.length_map _ _
  have hbound : ∀ j ∈ order, j < (vals.map (Except.ok (ε := ε))).length := by
    intro j hj
    have h1 := hinv.done_lt j hj
    have h2 : (runSched (ε := ε) (vals.map Except.ok) limit order).nextIndex ≤
        (vals.map (Except.ok (ε := ε))).length := by
      rw [hinv.next_eq]
      exact Nat.min_le_left _ _
    omega
  have hfe : firstError (vals.map Except.ok) order = (none : Option ε) :=
    firstError_map_ok vals order
  have hok : okCount (vals.map Except.ok) order = order.length :=
    (firstError_eq_none_iff (vals.map Except.ok) order hbound).mp hfe
  have hfl := hinv.inflight_len
  rw [hfin] at hfl
  have hne := hinv.next_eq
  have hordn : order.length = (vals.map (Except.ok (ε := ε))).length := by
    rw [hok] at hne
    simp only [List.length_nil, Nat.zero_add] at hfl
    omega
  refine ⟨?_, List.length_map _ _, ?_⟩
  · rw [hinv.settled_eq]
    unfold expectedSettled
    rw [hfe, if_pos (by rw [hok, hordn])]
    rw [List.map_map]
    rfl
  · intro hnil
    subst hnil
    unfold throttleInit
    rw [iterateNext_blank]
    simp [hlim]

/-- Witness for C1: three tasks, concurrency 2, delivered out of order. -/
theorem throttleAll_all_success_ordered_witness :
    (1 ≤ 2 ∧
      validFrom (ε := String) ([10, 20, 30].map Except.ok)
        (throttleInit ([10, 20, 30].map Except.ok) 2) [1, 0, 2] = true ∧
      (runSched (ε := String) ([10, 20, 30].map Except.ok) 2 [1, 0, 2]).inFlight = []) ∧
    (runSched (ε := String) ([10, 20, 30].map Except.ok) 2 [1, 0, 2]).settled =
      some (.ok ([10, 20, 30].map some)) :=
  ⟨⟨by decide, by decide, by decide⟩,
    (throttleAll_all_success_ordered [10, 20, 30] 2 (by decide) [1, 0, 2] (by decide)
      (by decide)).1⟩

/-- C2 counterexample: with limit 2 and a first task that fails, the
delivery of that failure does not start the next queued task — after the
valid single-delivery run `[0]` only one task is in flight although the
task list is not exhausted, so the pool is not kept saturated at `limit`. -/
theorem throttleAll_saturation_counterexample :
    (1 : Nat) ≤ 2 ∧
    validFrom ([Except.error "x", Except.ok 2, Except.ok 3] : List (Except String Nat))
      (throttleInit [Except.error "x", Except.ok 2, Except.ok 3] 2) [0] = true ∧
    (runSched ([Except.error "x", Except.ok 2, Except.ok 3] : List (Except String Nat))
      2 [0]).nextIndex <
      ([Except.error "x", Except.ok 2, Except.ok 3] : List (Except String Nat)).length ∧
    (runSched ([Except.error "x", Except.ok 2, Except.ok 3] : List (Except String Nat))
      2 [0]).inFlight.length ≠ 2 := by
  refine ⟨by decide, by decide, by decide, by decide⟩

/-- C2 (amended): along every valid delivery order the in-flight set never
exceeds `limit`; as long as every delivered task has succeeded, it is kept
at exactly `limit` until the task list is exhausted (each fulfilment
starts the next queued task at once — a failed delivery instead rejects
the batch and starts nothing); and for `limit = 1` deliveries are forced
into input order, so the tasks that run execute strictly sequentially in
input order. -/
theorem throttleAll_concurrency_bound {ε α : Type} (tasks : List (Except ε α))
    (limit : Nat) (order : List Nat) (hlim : 1 ≤ limit)
    (hvalid : validFrom tasks (throttleInit tasks limit) order = true) :
    (runSched tasks limit order).inFlight.length ≤ limit ∧
    (firstError tasks order = none →
      (runSched tasks limit order).nextIndex < tasks.length →
      (runSched tasks limit order).inFlight.length = limit) ∧
    (limit = 1 → order = List.range order.length) := by
  have hinv := schedInv_runSched tasks limit order hlim hvalid
  have hfl := hinv.inflight_len
  have hne := hinv.next_eq
  have hokle := okCount_le_length tasks order
  refine ⟨by omega, ?_, ?_⟩
  · intro hfe hlt
    have hbound : ∀ j ∈ order, j < tasks.length := by
      intro j hj
      have h1 := hinv.done_lt j hj
      have h2 : (runSched tasks limit order).nextIndex ≤ tasks.length := by
        rw [hne]
        exact Nat.min_le_left _ _
      omega
    have hok := (firstError_eq_none_iff tasks order hbound).mp hfe
    omega
  · intro h1
    subst h1
    have h0 : SchedInv tasks 1 (List.range 0) (throttleInit tasks 1) :=
      schedInv_init tasks 1 (Nat.le_refl 1)
    have h := validFrom_limit_one_range tasks order 0 (throttleInit tasks 1) h0 hvalid
    conv_lhs => rw [h]
    rw [List.range_eq_range']

/-- Witness for C2: two tasks at limit 1 after one delivery. -/
theorem throttleAll_concurrency_bound_witness :
    (1 ≤ 1 ∧
      validFrom (ε := String) ([Except.ok 1, Except.ok 2] : List (Except String Nat))
        (throttleInit [Except.ok 1, Except.ok 2] 1) [0] = true) ∧
    ((runSched ([Except.ok 1, Except.ok 2] : List (Except String Nat)) 1 [0]).inFlight.length
        ≤ 1 ∧
      (firstError ([Except.ok 1, Except.ok 2] : List (Except String Nat)) [0] = none →
        (runSched ([Except.ok 1, Except.ok 2] : List (Except String Nat)) 1 [0]).nextIndex <
          ([Except.ok 1, Except.ok 2] : List (Except String Nat)).length →
        (runSched ([Except.ok 1, Except.ok 2] : List (Except String Nat)) 1
          [0]).inFlight.length = 1) ∧
      ((1 : Nat) = 1 → [0] = List.range ([0] : List Nat).length)) :=
  ⟨⟨by decide, by decide⟩,
    throttleAll_concurrency_bound [Except.ok 1, Except.ok 2] 1 [0] (by decide) (by decide)⟩

/-- C3: the first failing delivery rejects the whole batch with exactly
that task's failure value, at that very step, while the other in-flight
tasks remain in flight (they are not cancelled). -/
theorem throttleAll_first_failure {ε α : Type} (tasks : List (Except ε α)) (limit : Nat)
    (order : List Nat) (i : Nat) (e : ε) (hlim : 1 ≤ limit)
    (hvalid : validFrom tasks (throttleInit tasks limit) (order ++ [i]) = true)
    (herr : tasks[i]? = some (.error e))
    (hfirst : firstError tasks order = none) :
    (runSched tasks limit (order ++ [i])).settled = some (.error e) ∧
    (∀ j, j ∈ (runSched tasks limit order).inFlight → j ≠ i →
      j ∈ (runSched tasks limit (order ++ [i])).inFlight) := by
  have hv1 : validFrom tasks (throttleInit tasks limit) order = true := by
    rw [validFrom_append, Bool.and_eq_true] at hvalid
    exact hvalid.1
  have hinv1 := schedInv_runSched tasks limit order hlim hv1
  have hinv2 := schedInv_runSched tasks limit (order ++ [i]) hlim hvalid
  have hfe2 : firstError tasks (order ++ [i]) = some e := by
    rw [firstError_append, hfirst]
    simp [firstError, herr]
  constructor
  · rw [hinv2.settled_eq]
    unfold expectedSettled
    rw [hfe2]
  · intro j hj hji
    obtain ⟨hjlt, hjnot⟩ := (hinv1.inflight_mem j).mp hj
    rw [hinv2.inflight_mem]
    have htok : taskOk tasks i = false := by simp [taskOk, herr]
    have hok2 : okCount tasks (order ++ [i]) = okCount tasks order := by
      rw [okCount_append_single, htok]
      simp
    have hnx : (runSched tasks limit (order ++ [i])).nextIndex =
        (runSched tasks limit order).nextIndex := by
      rw [hinv2.next_eq, hinv1.next_eq, hok2]
    refine ⟨by omega, fun hc => ?_⟩
    rcases List.mem_append.mp hc with hc | hc
    · exact hjnot hc
    · exact hji (List.mem_singleton.mp hc)

/-- Witness for C3: three tasks at limit 3 where task 1 rejects with
`"boom"`; delivering just that failure settles the batch with `"boom"`
while tasks 0 and 2 stay in flight. -/
theorem throttleAll_first_failure_witness :
    (1 ≤ 3 ∧
      validFrom ([Except.ok 1, Except.error "boom", Except.ok 3] : List (Except String Nat))
        (throttleInit [Except.ok 1, Except.error "boom", Except.ok 3] 3)
        ([] ++ [1]) = true ∧
      ([Except.ok 1, Except.error "boom", Except.ok 3] :
        List (Except String Nat))[1]? = some (.error "boom") ∧
      firstError ([Except.ok 1, Except.error "boom", Except.ok 3] :
        List (Except String Nat)) [] = none) ∧
    ((runSched ([Except.ok 1, Except.error "boom", Except.ok 3] :
        List (Except String Nat)) 3 ([] ++ [1])).settled = some (.error "boom") ∧
      (∀ j, j ∈ (runSched ([Except.ok 1, Except.error "boom", Except.ok 3] :
          List (Except String Nat)) 3 []).inFlight → j ≠ 1 →
        j ∈ (runSched ([Except.ok 1, Except.error "boom", Except.ok 3] :
          List (Except String Nat)) 3 ([] ++ [1])).inFlight)) :=
  ⟨⟨by decide, by decide, by decide, by decide⟩,
    throttleAll_first_failure [Except.ok 1, Except.error "boom", Except.ok 3] 3 [] 1 "boom"
      (by decide) (by decide) (by decide) (by decide)⟩

end ImageMinimizer
